import Mathlib

/-!
# turbo-upnp: SOAP transport, gateway actions and device locator

A shallow embedding of `soap/soap.go`, `internet/internetgateway.go` and `upnp.go`.

Conventions of the embedding.

* A Go `string` is a Lean `String` (a sequence of Unicode code points, i.e. valid UTF-8);
  a `[]byte` holding text is a `String` as well.
* A Go `error` is a `GoError`: either a message (`errors.New`, `fmt.Errorf`) or the
  `*SOAPFaultError` of `soap.go`. A function returning `error` returns `Option GoError`
  (`none` is `nil`).
* A nil-able pointer is an `Option`.
* What the Go standard library and the `ssdp` package do is not part of these sources. The
  HTTP round trip, the XML decoder, `url.Parse` and `ssdp.Search` are parameters of the
  functions that call them; the small pure library functions (`strings.Split`,
  `xml.EscapeText`, `strconv.FormatUint`, the `xml.Encoder` token writer) are written out
  after their documented behaviour.
* The order in which `range` visits a Go map is chosen by the runtime on every loop; it is
  the parameter `rangeOrder` of the functions that iterate over `SoapAction.Params`.
-/

namespace TurboUpnp

set_option maxRecDepth 100000

/-! ## Errors -/

/-- SOAPFaultError of `soap.go`: the decoded `Fault` element (`Detail` is `Detail.Raw`). -/
structure SOAPFaultError where
  FaultCode : String
  FaultString : String
  Detail : String
deriving DecidableEq, Repr

/-- A Go `error` value as this package produces it. -/
inductive GoError where
  | errorString (msg : String)
  | soapFault (fault : SOAPFaultError)
deriving DecidableEq, Repr

/-- The method `Error()`; for the fault it is `(*SOAPFaultError).Error` of `soap.go`. -/
def GoError.Error : GoError → String
  | .errorString msg => msg
  | .soapFault fault => "SOAP fault: " ++ fault.FaultString

/-! ## `soap/soap.go`: constants and data -/

def soapEncodingStyle : String := "http://schemas.xmlsoap.org/soap/encoding/"

/-- Go `xml.Header`: the XML declaration followed by a line feed. -/
def xmlHeader : String := "<?xml version=\"1.0\" encoding=\"UTF-8\"?>" ++ "\n"

def soapPrefix : String :=
  xmlHeader ++ "<s:Envelope xmlns:s=\"http://schemas.xmlsoap.org/soap/envelope/\" s:encodingStyle=\"http://schemas.xmlsoap.org/soap/encoding/\"><s:Body>"

def soapSuffix : String := "</s:Body></s:Envelope>"

def URN_WANPPPConnection_1 : String := "urn:schemas-upnp-org:service:WANPPPConnection:1"

/-- SoapAction of `soap.go`. `Params` lists the entries of the Go map (keys pairwise
distinct); the list order carries no meaning, the iteration order is `rangeOrder`. -/
structure SoapAction where
  Params : List (String × String)
deriving DecidableEq, Repr

/-- The struct `soapBody`: the optional fault and the raw inner XML of the body. -/
structure soapBody where
  Fault : Option SOAPFaultError
  RawAction : String
deriving DecidableEq, Repr

/-- The struct `soapEnvelope` (without `XMLName`). -/
structure soapEnvelope where
  EncodingStyle : String
  Body : soapBody
deriving DecidableEq, Repr

/-- Go `url.URL`, the fields a control URL has. -/
structure URL where
  Scheme : String
  Host : String
  Path : String
deriving DecidableEq, Repr

/-- Go `http.Request`, the fields `PerformAction` sets. -/
structure Request where
  Method : String
  URL : Option URL
  Header : List (String × List String)
  Body : String
  ContentLength : Int
deriving DecidableEq, Repr

/-- Go `http.Response`, the fields `PerformAction` reads. For the response to a POST that
`net/http` delivers, `ContentLength` 0 means that `Body` is empty. -/
structure Response where
  Status : String
  StatusCode : Int
  ContentLength : Int
  Body : String
deriving DecidableEq, Repr

/-- The value behind the `responseAction interface{}` argument: a struct of string fields,
as (field name, value) pairs. -/
abbrev ResponseAction := List (String × String)

/-- The library calls `PerformAction` makes, as parameters.
* `rangeOrder m`: the entries of the map `m` in the order this run iterates over them;
* `Do`: `(*http.Client).Do`;
* `Decode body env`: `xml.NewDecoder(body).Decode(env)`, the filled envelope or the error;
* `Unmarshal raw v`: `xml.Unmarshal(raw, v)`, the filled value or the error. -/
structure Lib where
  rangeOrder : List (String × String) → List (String × String)
  Do : Request → Except GoError Response
  Decode : String → soapEnvelope → Except GoError soapEnvelope
  Unmarshal : String → ResponseAction → Except GoError ResponseAction

/-! ## `soap/soap.go`: escaping -/

/-- The regular expression `[<>&]` on one character. -/
def xmlCharRx (c : Char) : Bool := c = '<' || c = '>' || c = '&'

def replaceEntity (s : String) : String :=
  if s = "<" then "&lt;"
  else if s = ">" then "&gt;"
  else if s = "&" then "&amp;"
  else s

/-- Go `(*Regexp).ReplaceAllStringFunc` for an expression that is one character class: every
matching character is replaced by `repl` of it, the other characters are copied. -/
def ReplaceAllStringFunc (rx : Char → Bool) (src : List Char) (repl : String → String) :
    List Char :=
  match src with
  | [] => []
  | c :: rest =>
    (if rx c then (repl (String.singleton c)).data else [c]) ++ ReplaceAllStringFunc rx rest repl

def escapeXMLText (s : String) : String :=
  ⟨ReplaceAllStringFunc xmlCharRx s.data replaceEntity⟩

/-- Go `isInCharacterRange` of `encoding/xml`: the characters XML 1.0 allows. -/
def isInCharacterRange (c : Char) : Bool :=
  c.toNat = 0x09 || c.toNat = 0x0A || c.toNat = 0x0D ||
  (0x20 ≤ c.toNat && c.toNat ≤ 0xD7FF) ||
  (0xE000 ≤ c.toNat && c.toNat ≤ 0xFFFD) ||
  (0x10000 ≤ c.toNat && c.toNat ≤ 0x10FFFF)

/-- Go `xml.EscapeText` on one character. -/
def escapeTextChar (c : Char) : List Char :=
  if c = '"' then "&#34;".data
  else if c = '\'' then "&#39;".data
  else if c = '&' then "&amp;".data
  else if c = '<' then "&lt;".data
  else if c = '>' then "&gt;".data
  else if c = '\t' then "&#x9;".data
  else if c = '\n' then "&#xA;".data
  else if c = '\r' then "&#xD;".data
  else if !isInCharacterRange c then [Char.ofNat 0xFFFD]
  else [c]

/-- Go `xml.EscapeText(w, s)`: what is appended to `w`. -/
def EscapeText (s : String) : String := ⟨s.data.flatMap escapeTextChar⟩

/-! ## `soap/soap.go`: marshalling -/

def MarshalBoolean (v : Bool) : String := if v then "1" else "0"

/-- Go `strconv.FormatUint(v, 10)`. -/
def FormatUint10 (v : Nat) : String := Nat.repr v

/-- MarshalU16 of `soap.go`; `v` is a `uint16`, the error is always nil. -/
def MarshalU16 (v : Nat) : String × Option GoError := (FormatUint10 v, none)

/-- MarshalU32 of `soap.go`; `v` is a `uint32`, the error is always nil. -/
def MarshalU32 (v : Nat) : String × Option GoError := (FormatUint10 v, none)

/-! ## `soap/soap.go`: request encoding -/

/-- The tokens `encodeRequestArgs` hands to the encoder; the name is `Name.Local`, the
name space is empty and there are no attributes. -/
inductive Token where
  | StartElement (name : String)
  | EndElement (name : String)
deriving DecidableEq, Repr

/-- The state of a Go `xml.Encoder`: the bytes written to it and not yet flushed, and the
stack of open tags (innermost first). -/
structure Encoder where
  buf : String
  tags : List String
deriving DecidableEq, Repr

/-- Go `xml.NewEncoder(w)`. -/
def NewEncoder : Encoder := { buf := "", tags := [] }

/-- Go `(*Encoder).EncodeToken` on a start or end element without name space and
attributes: the name is written as it is, an empty name and an end tag that does not close
the innermost open tag are errors. -/
def Encoder.EncodeToken (enc : Encoder) : Token → Except GoError Encoder
  | .StartElement name =>
    if name = "" then .error (.errorString "xml: start tag with no name")
    else .ok { buf := enc.buf ++ "<" ++ name ++ ">", tags := name :: enc.tags }
  | .EndElement name =>
    if name = "" then .error (.errorString "xml: end tag with no name")
    else match enc.tags with
      | [] => .error (.errorString ("xml: end tag </" ++ name ++ "> without start tag"))
      | top :: rest =>
        if top = name then .ok { buf := enc.buf ++ "</" ++ name ++ ">", tags := rest }
        else .error (.errorString
          ("xml: end tag </" ++ name ++ "> does not match start tag <" ++ top ++ ">"))

/-- Go `(*Encoder).Flush` into the buffer `w`: the pending bytes are appended to `w`; writing
to a `bytes.Buffer` does not fail. -/
def Encoder.Flush (enc : Encoder) (w : String) : Encoder × String :=
  ({ enc with buf := "" }, w ++ enc.buf)

/-- The verb `%q` of `fmt` on a string none of whose characters needs a Go escape. -/
def fmtQ (s : String) : String := "\"" ++ s ++ "\""

/-- The body of the `for field, value := range action.Params` loop of `encodeRequestArgs`,
over the entries still to visit. -/
def encodeRequestArgsLoop :
    List (String × String) → Encoder → String → Except GoError (Encoder × String)
  | [], enc, w => .ok (enc, w)
  | (field, value) :: rest, enc, w =>
    match enc.EncodeToken (.StartElement field) with
    | .error err => .error (.errorString
        ("error encoding start element for SOAP arg " ++ fmtQ field ++ ": " ++ err.Error))
    | .ok enc1 =>
      let (enc2, w1) := enc1.Flush w
      let w2 := w1 ++ escapeXMLText value
      match enc2.EncodeToken (.EndElement field) with
      | .error err => .error (.errorString
          ("error encoding end element for SOAP arg " ++ fmtQ field ++ ": " ++ err.Error))
      | .ok enc3 => encodeRequestArgsLoop rest enc3 w2

/-- The function `encodeRequestArgs(w, action)`: the new content of `w`, or the error. -/
def encodeRequestArgs (rangeOrder : List (String × String) → List (String × String))
    (w : String) (action : SoapAction) : Except GoError String :=
  match encodeRequestArgsLoop (rangeOrder action.Params) NewEncoder w with
  | .error err => .error err
  | .ok (enc, w1) => .ok (enc.Flush w1).2

/-- The function `encodeRequestAction(actionName, request)`: the request bytes, or the
error. -/
def encodeRequestAction (rangeOrder : List (String × String) → List (String × String))
    (actionName : String) (request : Option SoapAction) : Except GoError String :=
  let requestBuf := ""
  let requestBuf := requestBuf ++ soapPrefix
  let requestBuf := requestBuf ++ "<u:"
  let requestBuf := requestBuf ++ EscapeText actionName
  let requestBuf := requestBuf ++ " xmlns:u=\""
  let requestBuf := requestBuf ++ EscapeText URN_WANPPPConnection_1
  let requestBuf := requestBuf ++ "\">"
  let args : Except GoError String :=
    match request with
    | some action => encodeRequestArgs rangeOrder requestBuf action
    | none => .ok requestBuf
  match args with
  | .error err => .error err
  | .ok requestBuf =>
    let requestBuf := requestBuf ++ "</u:"
    let requestBuf := requestBuf ++ EscapeText actionName
    let requestBuf := requestBuf ++ ">"
    let requestBuf := requestBuf ++ soapSuffix
    .ok requestBuf

/-! ## `soap/soap.go`: the action call -/

/-- The function `newSOAPEnvelope`. -/
def newSOAPEnvelope : soapEnvelope :=
  { EncodingStyle := soapEncodingStyle, Body := { Fault := none, RawAction := "" } }

/-- The verb `%v` of `fmt` on a `[]byte`: the decimal byte values between brackets. -/
def fmtBytes (b : String) : String :=
  "[" ++ " ".intercalate (b.toUTF8.toList.map fun x => Nat.repr x.toNat) ++ "]"

/-- The request `PerformAction` builds from the encoded bytes. -/
def newRequest (actionName : String) (url : Option URL) (requestBytes : String) : Request :=
  { Method := "POST"
    URL := url
    Header := [("SOAPACTION", ["\"" ++ URN_WANPPPConnection_1 ++ "#" ++ actionName ++ "\""]),
               ("CONTENT-TYPE", ["text/xml; charset=\"utf-8\""])]
    Body := requestBytes
    ContentLength := requestBytes.utf8ByteSize }

/-- The function `PerformAction(actionName, url, action, responseAction)`: the returned error
and the value behind `responseAction` after the call. -/
def PerformAction (lib : Lib) (actionName : String) (url : Option URL)
    (action : Option SoapAction) (responseAction : Option ResponseAction) :
    Option GoError × Option ResponseAction :=
  match encodeRequestAction lib.rangeOrder actionName action with
  | .error err => (some err, responseAction)
  | .ok requestBytes =>
    match lib.Do (newRequest actionName url requestBytes) with
    | .error err =>
      (some (.errorString ("error performing SOAP HTTP request: " ++ err.Error)), responseAction)
    | .ok response =>
      if response.StatusCode ≠ 200 ∧ response.ContentLength = 0 then
        (some (.errorString ("SOAP request got HTTP " ++ response.Status)), responseAction)
      else
        match lib.Decode response.Body newSOAPEnvelope with
        | .error err =>
          (some (.errorString ("error decoding response body: " ++ err.Error)), responseAction)
        | .ok responseEnv =>
          match responseEnv.Body.Fault with
          | some fault => (some (.soapFault fault), responseAction)
          | none =>
            if response.StatusCode ≠ 200 then
              (some (.errorString ("SOAP request got HTTP " ++ response.Status)), responseAction)
            else
              match responseAction with
              | none => (none, none)
              | some out =>
                match lib.Unmarshal responseEnv.Body.RawAction out with
                | .error err =>
                  (some (.errorString ("error unmarshalling out action: " ++ err.Error ++ ", " ++
                    fmtBytes responseEnv.Body.RawAction)), some out)
                | .ok filled => (none, some filled)

/-! ## `internet/internetgateway.go` -/

def URN_WANIPConnection_1 : String := "urn:schemas-upnp-org:service:WANIPConnection:1"

def AddPortMappingAction : String := "AddPortMapping"

def DeletePortMappingAction : String := "DeletePortMapping"

def GetExternalIPAddressAction : String := "GetExternalIPAddress"

/-- The function `AddPortMapping`; the two ports are `uint16`, the lease duration is
`uint32`. The map literal is listed in the order it is written. -/
def AddPortMapping (lib : Lib)
    (newRemoteHost newInternalClient newProtocol newPortMappingDescription : String)
    (newExternalPort newInternalPort : Nat) (newEnabled : Bool) (newLeaseDuration : Nat)
    (clientURL : Option URL) : Option GoError :=
  match clientURL with
  | none => some (.errorString "url is empty")
  | some _ =>
    match MarshalU16 newExternalPort with
    | (_, some err) => some err
    | (exPort, none) =>
      match MarshalU16 newInternalPort with
      | (_, some err) => some err
      | (inPort, none) =>
        match MarshalU32 newLeaseDuration with
        | (_, some err) => some err
        | (duration, none) =>
          let params : List (String × String) := [
            ("NewRemoteHost", newRemoteHost),
            ("NewExternalPort", exPort),
            ("NewProtocol", newProtocol),
            ("NewInternalPort", inPort),
            ("NewInternalClient", newInternalClient),
            ("NewEnabled", MarshalBoolean newEnabled),
            ("NewPortMappingDescription", newPortMappingDescription),
            ("NewLeaseDuration", duration)]
          let action : SoapAction := { Params := params }
          (PerformAction lib AddPortMappingAction clientURL (some action) none).1

/-- The function `DeletePortMapping`; the port is a `uint16`. -/
def DeletePortMapping (lib : Lib) (newRemoteHost : String) (newExternalPort : Nat)
    (newProtocol : String) (clientURL : Option URL) : Option GoError :=
  match clientURL with
  | none => some (.errorString "url is empty")
  | some _ =>
    match MarshalU16 newExternalPort with
    | (_, some err) => some err
    | (port, none) =>
      let params : List (String × String) := [
        ("NewRemoteHost", newRemoteHost),
        ("NewExternalPort", port),
        ("NewProtocol", newProtocol)]
      let action : SoapAction := { Params := params }
      (PerformAction lib DeletePortMappingAction clientURL (some action) none).1

/-- The field `name` of a response struct (the empty string when it is not there). -/
def ResponseAction.field (r : ResponseAction) (name : String) : String :=
  ((r.find? fun kv => kv.1 = name).map Prod.snd).getD ""

/-- The function `GetExternalIPAddress`. -/
def GetExternalIPAddress (lib : Lib) (clientURL : Option URL) : String × Option GoError :=
  match clientURL with
  | none => ("", some (.errorString "url is empty"))
  | some _ =>
    let response : ResponseAction := [("NewExternalIPAddress", "")]
    match PerformAction lib GetExternalIPAddressAction clientURL none (some response) with
    | (some err, _) => ("", some err)
    | (none, filled) => ((filled.getD response).field "NewExternalIPAddress", none)

/-! ## `upnp.go`: the device locator -/

/-- Go `strings.Split` on characters, for a separator that is not empty. The first argument
counts the characters of a separator just matched that are still to be skipped. -/
def splitChars (sep : List Char) : Nat → List Char → List (List Char)
  | _, [] => [[]]
  | skip + 1, _ :: cs => splitChars sep skip cs
  | 0, c :: cs =>
    if sep.isPrefixOf (c :: cs) then [] :: splitChars sep (sep.length - 1) cs
    else
      match splitChars sep 0 cs with
      | [] => [[c]]
      | piece :: pieces => (c :: piece) :: pieces

/-- Go `strings.Split(s, sep)`: the pieces of `s` between the occurrences of `sep`, found
from left to right without overlap; with an empty `sep`, the characters of `s`. -/
def Split (s sep : String) : List String :=
  if sep = "" then s.data.map String.singleton
  else (splitChars sep.data 0 s.data).map String.mk

def clientURLEnd : String := "/ctl/IPConn"

/-- The record `ssdp.Service`, the two fields `InitDevice` reads (`ServiceType` is the field
`Type`). -/
structure Service where
  ServiceType : String
  Location : String
deriving DecidableEq, Repr

/-- Device of `upnp.go`. -/
structure Device where
  location : String
  clientURL : Option URL
deriving DecidableEq, Repr

/-- Go `time.Millisecond`, in nanoseconds. -/
def Millisecond : Int := 1000000

/-- What `InitDevice` does to the outside, in order: a call `ssdp.Search(ssdp.All, waitSec,
localAddr)` or a call `time.Sleep(d)`. -/
inductive Event where
  | Search (waitSec : Int) (localAddr : String)
  | Sleep (d : Int)
deriving DecidableEq, Repr

/-- The inner loop of `InitDevice` over the records of one answer: the value of `address`
after it. -/
def scanAddress (list : List Service) : String :=
  list.foldl (fun address srv =>
    if srv.ServiceType = URN_WANIPConnection_1 then srv.Location else address) ""

/-- The result of `InitDevice`: the returned pair and the calls made. -/
abbrev InitResult := (Option Device × Option GoError) × List Event

/-- The loop `for i := 0; i < times; i++` of `InitDevice` with `fuel = times - i` rounds
to go. `search k` is what the call number `k` (from 0) of `ssdp.Search` returns, `parse` is
`url.Parse`, `trace` the calls made so far. -/
def InitDeviceLoop (search : Nat → Except GoError (List Service))
    (parse : String → Except GoError URL) (timeSleep : Int) :
    Nat → Nat → List Event → InitResult
  | 0, _, trace =>
    ((none, some (.errorString "no available internet gateway devices")), trace)
  | fuel + 1, i, trace =>
    let trace := trace ++ [Event.Search 1 ""]
    match search i with
    | .error err => ((none, some err), trace)
    | .ok list =>
      let address := scanAddress list
      if address = "" then
        InitDeviceLoop search parse timeSleep fuel (i + 1) (trace ++ [Event.Sleep timeSleep])
      else
        let addressSplit := Split address "http://"
        if addressSplit.length ≠ 2 then
          ((none, some (.errorString "invalid address")), trace)
        else
          let ipSplit := Split (addressSplit.getD 1 "") "/"
          if ipSplit.length ≠ 2 then
            ((none, some (.errorString "invalid address")), trace)
          else
            let location := ipSplit.getD 0 ""
            let clientAddress := "http://" ++ location ++ clientURLEnd
            match parse clientAddress with
            | .error err => ((some { location := location, clientURL := none }, some err), trace)
            | .ok clientUrl =>
              ((some { location := location, clientURL := some clientUrl }, none), trace)

/-- The function `InitDevice`. -/
def InitDevice (search : Nat → Except GoError (List Service))
    (parse : String → Except GoError URL) : InitResult :=
  let times := 3
  let timeSleep := Millisecond * 500
  InitDeviceLoop search parse timeSleep times 0 []

/-- The method `(*Device).Location`. -/
def Device.Location (d : Device) : String := d.location

/-! ## `upnp.go`: the device facade -/

/-- The method `(*Device).PublicIP`. -/
def Device.PublicIP (lib : Lib) (d : Device) : String × Option GoError :=
  GetExternalIPAddress lib d.clientURL

/-- The Go conversion `uint16(v)` of an `int`: the low 16 bits. -/
def uint16 (v : Int) : Nat := (v % 65536).toNat

/-- The function `getInternalIP`. `Dial network address` is `net.Dial` followed by
`conn.LocalAddr().(*net.UDPAddr).IP.String()`: the local address of the connection, or the
error of `net.Dial`. On that error `log.Fatal` ends the process and nothing is returned
(`none`). -/
def getInternalIP (Dial : String → String → Except GoError String) : Option String :=
  match Dial "udp" "8.8.8.8:80" with
  | .error _ => none
  | .ok localAddr => some localAddr

/-- The method `(*Device).Forward`; `none` when the process ends in `getInternalIP`. -/
def Device.Forward (lib : Lib) (Dial : String → String → Except GoError String) (d : Device)
    (port : Int) (mapDescription : String) : Option (Option GoError) :=
  match getInternalIP Dial with
  | none => none
  | some internalIP =>
    some (AddPortMapping lib "" internalIP "TCP" mapDescription (uint16 port) (uint16 port)
      true 0 d.clientURL)

/-- The method `(*Device).Close`. -/
def Device.Close (lib : Lib) (d : Device) (port : Int) : Option GoError :=
  DeletePortMapping lib "" (uint16 port) "TCP" d.clientURL

/-! ## Canned collaborators for the examples -/

/-- A response body with a fault of code 500 and string InvalidArgs. -/
def faultBody : String :=
  "<s:Envelope xmlns:s=\"http://schemas.xmlsoap.org/soap/envelope/\" s:encodingStyle=\"http://schemas.xmlsoap.org/soap/encoding/\"><s:Body><s:Fault><faultCode>500</faultCode><faultString>InvalidArgs</faultString><detail></detail></s:Fault></s:Body></s:Envelope>"

/-- The inner XML of the body element of `faultBody`. -/
def faultRaw : String :=
  "<s:Fault><faultCode>500</faultCode><faultString>InvalidArgs</faultString><detail></detail></s:Fault>"

/-- The fault `faultBody` carries. -/
def cannedFault : SOAPFaultError :=
  { FaultCode := "500", FaultString := "InvalidArgs", Detail := "" }

/-- A response body with an empty envelope body and no fault. -/
def emptyActionBody : String :=
  "<s:Envelope xmlns:s=\"http://schemas.xmlsoap.org/soap/envelope/\" s:encodingStyle=\"http://schemas.xmlsoap.org/soap/encoding/\"><s:Body></s:Body></s:Envelope>"

/-- The XML decoder on the canned bodies: `faultBody` and `emptyActionBody` decode as the
envelopes they spell, anything else (plain text, the empty body) is not a decodable
envelope. -/
def cannedDecode (body : String) (env : soapEnvelope) : Except GoError soapEnvelope :=
  if body = faultBody then
    .ok { env with Body := { Fault := some cannedFault, RawAction := faultRaw } }
  else if body = emptyActionBody then
    .ok { env with Body := { Fault := none, RawAction := "" } }
  else .error (.errorString "EOF")

/-- A library whose HTTP client answers every request with `response`, whose maps are
iterated in the listed order and whose decoder is `cannedDecode`. -/
def cannedLib (response : Response) : Lib :=
  { rangeOrder := id
    Do := fun _ => .ok response
    Decode := cannedDecode
    Unmarshal := fun _ out => .ok out }

/-- A control URL for the examples. -/
def cannedURL : URL := { Scheme := "http", Host := "192.168.1.1:1780", Path := "/ctl/IPConn" }

/-- The parser `url.Parse` on the examples: an address `http://host/path` without further
parts gives its host and path, anything else is refused. -/
def cannedParse (s : String) : Except GoError URL :=
  if "http://".data.isPrefixOf s.data then
    let rest := s.data.drop 7
    .ok { Scheme := "http"
          Host := ⟨rest.takeWhile fun c => c ≠ '/'⟩
          Path := ⟨rest.dropWhile fun c => c ≠ '/'⟩ }
  else .error (.errorString "parse: unsupported address")

/-- The number of `ssdp.Search` calls in a trace. -/
def searchCount (trace : List Event) : Nat :=
  (trace.filter fun e => match e with | .Search _ _ => true | .Sleep _ => false).length

/-- The number of `time.Sleep` calls in a trace. -/
def sleepCount (trace : List Event) : Nat :=
  (trace.filter fun e => match e with | .Search _ _ => false | .Sleep _ => true).length

/-- A library whose HTTP client answers every request with status 500, no content and the
request body as status text, so that the error `PerformAction` returns shows the bytes
sent; maps are iterated in the listed order. -/
def probeLib : Lib :=
  { rangeOrder := id
    Do := fun request => .ok ⟨request.Body, 500, 0, ""⟩
    Decode := cannedDecode
    Unmarshal := fun _ out => .ok out }

/-- A local address detection that succeeds with 192.168.1.10. -/
def cannedDial (_network _address : String) : Except GoError String := .ok "192.168.1.10"

/-- A device for the examples. -/
def cannedDevice : Device := { location := "192.168.1.1:1780", clientURL := some cannedURL }

/-! ## The specification's side of the escaping claims -/

/-- The escaping the specification describes, on one character: the entity for each of the
three characters, the character itself otherwise. -/
def specEntity (c : Char) : List Char :=
  if c = '<' then ['&', 'l', 't', ';']
  else if c = '>' then ['&', 'g', 't', ';']
  else if c = '&' then ['&', 'a', 'm', 'p', ';']
  else [c]

/-- The entity the text `l` starts with, if any: its character and its length. -/
def entityAt (l : List Char) : Option (Char × Nat) :=
  if ['&', 'l', 't', ';'].isPrefixOf l then some ('<', 4)
  else if ['&', 'g', 't', ';'].isPrefixOf l then some ('>', 4)
  else if ['&', 'a', 'm', 'p', ';'].isPrefixOf l then some ('&', 5)
  else none

/-- Reading XML text back: each of the three entities gives its character, from left to
right; every other character stands for itself. The first argument counts the characters of
an entity just read that are still to be skipped. -/
def unescapeXMLChars : Nat → List Char → List Char
  | _, [] => []
  | skip + 1, _ :: rest => unescapeXMLChars skip rest
  | 0, c :: rest =>
    match entityAt (c :: rest) with
    | some (ch, n) => ch :: unescapeXMLChars (n - 1) rest
    | none => c :: unescapeXMLChars 0 rest

/-- Reading XML text back, on strings. -/
def unescapeXMLText (s : String) : String := ⟨unescapeXMLChars 0 s.data⟩

/-! ## The specification's side of the request claims -/

/-- The element the specification writes for one parameter: `<Name>value</Name>`, the value
escaped. -/
def paramElement (p : String × String) : String :=
  "<" ++ p.1 ++ ">" ++ escapeXMLText p.2 ++ "</" ++ p.1 ++ ">"

/-- A character `xml.EscapeText` leaves as it is. -/
def needsNoEscape (c : Char) : Bool :=
  c ≠ '"' && c ≠ '\'' && c ≠ '&' && c ≠ '<' && c ≠ '>' && c ≠ '\t' && c ≠ '\n' && c ≠ '\r' &&
    isInCharacterRange c

/-! ## The specification's side of the marshalling claims -/

/-- The number a string of decimal digits denotes. -/
def decimalValue (s : String) : Nat :=
  s.data.foldl (fun acc c => 10 * acc + (c.toNat - '0'.toNat)) 0

/-- An unsigned decimal numeral: digits only, at least one, and no leading zero except for
the numeral `0` itself. -/
def isDecimalNumeral (s : String) : Bool :=
  s.data.all Char.isDigit && s.data ≠ [] && (s.data.head? ≠ some '0' || s = "0")

/-! ## The specification's side of the round trip: reading a request back

The reader below follows XML 1.0 on the request shape of the specification: the fixed
opening (declaration, line feed, envelope and body start tags) and closing are compared as
they stand; the action element and its children are read as XML: names are XML names
without colon, the name space comes from the `xmlns:u` attribute, text has its entities
replaced and its line ends normalised, and characters outside the XML range are refused. -/

/-- XML 1.0 `NameStartChar` without the colon. -/
def isNameStartChar (c : Char) : Bool :=
  (0x41 ≤ c.toNat && c.toNat ≤ 0x5A) || c.toNat = 0x5F || (0x61 ≤ c.toNat && c.toNat ≤ 0x7A) ||
  (0xC0 ≤ c.toNat && c.toNat ≤ 0xD6) || (0xD8 ≤ c.toNat && c.toNat ≤ 0xF6) ||
  (0xF8 ≤ c.toNat && c.toNat ≤ 0x2FF) || (0x370 ≤ c.toNat && c.toNat ≤ 0x37D) ||
  (0x37F ≤ c.toNat && c.toNat ≤ 0x1FFF) || (0x200C ≤ c.toNat && c.toNat ≤ 0x200D) ||
  (0x2070 ≤ c.toNat && c.toNat ≤ 0x218F) || (0x2C00 ≤ c.toNat && c.toNat ≤ 0x2FEF) ||
  (0x3001 ≤ c.toNat && c.toNat ≤ 0xD7FF) || (0xF900 ≤ c.toNat && c.toNat ≤ 0xFDCF) ||
  (0xFDF0 ≤ c.toNat && c.toNat ≤ 0xFFFD) || (0x10000 ≤ c.toNat && c.toNat ≤ 0xEFFFF)

/-- XML 1.0 `NameChar` without the colon. -/
def isNameChar (c : Char) : Bool :=
  isNameStartChar c || c.toNat = 0x2D || c.toNat = 0x2E || (0x30 ≤ c.toNat && c.toNat ≤ 0x39) ||
  c.toNat = 0xB7 || (0x300 ≤ c.toNat && c.toNat ≤ 0x36F) ||
  (0x203F ≤ c.toNat && c.toNat ≤ 0x2040)

/-- An XML name without colon: a name start character, then name characters. -/
def isNCName (s : String) : Bool :=
  match s.data with
  | [] => false
  | c :: rest => isNameStartChar c && rest.all isNameChar

/-- The text that follows the literal `lit`, if the input starts with it. -/
def expectChars (lit : List Char) (input : List Char) : Option (List Char) :=
  if lit.isPrefixOf input then some (input.drop lit.length) else none

/-- The longest run of name characters at the start of the input. -/
def spanName : List Char → List Char × List Char
  | [] => ([], [])
  | c :: rest =>
    if isNameChar c then ((spanName rest).1.cons c, (spanName rest).2) else ([], c :: rest)

/-- Reads an XML name without colon: the name and the rest of the input. -/
def readName (input : List Char) : Option (String × List Char) :=
  let (name, rest) := spanName input
  if isNCName ⟨name⟩ then some (⟨name⟩, rest) else none

/-- The entity reference the text starts with, if it is one of the five of XML: its
character and its length. -/
def xmlEntityAt (l : List Char) : Option (Char × Nat) :=
  if ['&', 'l', 't', ';'].isPrefixOf l then some ('<', 4)
  else if ['&', 'g', 't', ';'].isPrefixOf l then some ('>', 4)
  else if ['&', 'a', 'm', 'p', ';'].isPrefixOf l then some ('&', 5)
  else if ['&', 'q', 'u', 'o', 't', ';'].isPrefixOf l then some ('"', 6)
  else if ['&', 'a', 'p', 'o', 's', ';'].isPrefixOf l then some ('\'', 6)
  else none

/-- Puts a character in front of the text read so far. -/
def consText (c : Char) : Option (List Char × List Char) → Option (List Char × List Char)
  | some (text, rest) => some (c :: text, rest)
  | none => none

/-- Reads character data up to the next `<` (or, between quotes, up to the closing quote
`stop`): entity references are replaced, a carriage return (with a following line feed) is
read as a line feed, a bare `&` and a character outside the XML range are refused. The first
argument counts the characters of a reference just read that are still to be skipped. -/
def readText (stop : Char) : Nat → List Char → Option (List Char × List Char)
  | _, [] => some ([], [])
  | skip + 1, _ :: rest => readText stop skip rest
  | 0, c :: rest =>
    if c = '<' || c = stop then some ([], c :: rest)
    else if c = '&' then
      match xmlEntityAt (c :: rest) with
      | some (ch, n) => consText ch (readText stop (n - 1) rest)
      | none => none
    else if c = '\r' then
      if rest.head? = some '\n' then readText stop 0 rest
      else consText '\n' (readText stop 0 rest)
    else if !isInCharacterRange c then none
    else consText c (readText stop 0 rest)

/-- Reads the children of the action element, each `<name>text</name>`, up to the next end
tag; the first argument bounds the number of children read. -/
def readChildren : Nat → List Char → Option (List (String × String) × List Char)
  | 0, _ => none
  | fuel + 1, input =>
    if ['<', '/'].isPrefixOf input then some ([], input)
    else
      (expectChars ['<'] input).bind fun l1 =>
      (readName l1).bind fun (name, l2) =>
      (expectChars ['>'] l2).bind fun l3 =>
      (readText '<' 0 l3).bind fun (text, l4) =>
      (expectChars ("</" ++ name ++ ">").data l4).bind fun l5 =>
      (readChildren fuel l5).bind fun (children, l6) =>
      some ((name, ⟨text⟩) :: children, l6)

/-- The request read back. -/
structure ParsedRequest where
  Space : String
  Local : String
  Params : List (String × String)
deriving DecidableEq, Repr

/-- Reads a request back: the name space and local name of the action element and its
children as (name, value) pairs in document order; `none` when the bytes are not a
well-formed request of the specification's shape. -/
def readRequest (bytes : String) : Option ParsedRequest :=
  (expectChars soapPrefix.data bytes.data).bind fun l1 =>
  (expectChars "<u:".data l1).bind fun l2 =>
  (readName l2).bind fun (name, l3) =>
  (expectChars " xmlns:u=\"".data l3).bind fun l4 =>
  (readText '"' 0 l4).bind fun (space, l5) =>
  (expectChars "\">".data l5).bind fun l6 =>
  (readChildren (l6.length + 1) l6).bind fun (children, l7) =>
  (expectChars ("</u:" ++ name ++ ">").data l7).bind fun l8 =>
  (expectChars soapSuffix.data l8).bind fun l9 =>
  if l9 = [] then some { Space := ⟨space⟩, Local := name, Params := children } else none

/-- A character XML allows that is not a carriage return. -/
def isPlainXMLChar (c : Char) : Bool := isInCharacterRange c && c ≠ '\r'

/-! ## The specification's side of the locator claims -/

/-- The calls of `k` rounds of `InitDevice` that found no address: a query and a sleep of
500 ms each. -/
def roundsTrace : Nat → List Event
  | 0 => []
  | k + 1 => roundsTrace k ++ [Event.Search 1 "", Event.Sleep (500 * Millisecond)]

/-- The pieces of a split put together again with the separator between them. -/
def joinPieces (sep : List Char) : List (List Char) → List Char
  | [] => []
  | [piece] => piece
  | piece :: next :: rest => piece ++ sep ++ joinPieces sep (next :: rest)

/-! # Theorems -/

/-! ## The order of the checks of `PerformAction` -/

/-- What `PerformAction` returns once the request is encoded and the HTTP client has answered
with `response`. -/
theorem PerformAction_of_response (lib : Lib) (actionName : String) (url : Option URL)
    (action : Option SoapAction) (responseAction : Option ResponseAction)
    (requestBytes : String) (response : Response)
    (henc : encodeRequestAction lib.rangeOrder actionName action = .ok requestBytes)
    (hdo : lib.Do (newRequest actionName url requestBytes) = .ok response) :
    PerformAction lib actionName url action responseAction =
      if response.StatusCode ≠ 200 ∧ response.ContentLength = 0 then
        (some (.errorString ("SOAP request got HTTP " ++ response.Status)), responseAction)
      else
        match lib.Decode response.Body newSOAPEnvelope with
        | .error err =>
          (some (.errorString ("error decoding response body: " ++ err.Error)), responseAction)
        | .ok responseEnv =>
          match responseEnv.Body.Fault with
          | some fault => (some (.soapFault fault), responseAction)
          | none =>
            if response.StatusCode ≠ 200 then
              (some (.errorString ("SOAP request got HTTP " ++ response.Status)), responseAction)
            else
              match responseAction with
              | none => (none, none)
              | some out =>
                match lib.Unmarshal responseEnv.Body.RawAction out with
                | .error err =>
                  (some (.errorString ("error unmarshalling out action: " ++ err.Error ++ ", " ++
                    fmtBytes responseEnv.Body.RawAction)), some out)
                | .ok filled => (none, some filled) := by
  simp only [PerformAction, henc, hdo]

/-- The request for an action without arguments is always encoded. -/
theorem encodeRequestAction_none (rangeOrder : List (String × String) → List (String × String))
    (actionName : String) :
    encodeRequestAction rangeOrder actionName none =
      .ok ( soapPrefix ++ "<u:" ++ EscapeText actionName ++ " xmlns:u=\"" ++
        EscapeText URN_WANPPPConnection_1 ++ "\">" ++ "</u:" ++ EscapeText actionName ++ ">" ++
        soapSuffix) := by
  simp [encodeRequestAction]

/-! ## C1 -/

/-- C1: a response delivered by the HTTP client has an empty body when its `ContentLength`
is 0 (the contract of `net/http`), and the empty body is not a decodable envelope. For every
such response whose body decodes to an envelope with a fault of code `c` and string `s`,
`PerformAction` returns that fault, with `FaultCode = c` and `FaultString = s`, whatever the
status (200 or not), the other response fields, the request and the result shape; it returns
neither success nor an error that is a plain message, and leaves the result shape as it
was. -/
theorem C1_fault_returned (lib : Lib) (actionName : String) (url : Option URL)
    (action : Option SoapAction) (responseAction : Option ResponseAction)
    (requestBytes : String) (response : Response) (responseEnv : soapEnvelope)
    (c s detail : String)
    (henc : encodeRequestAction lib.rangeOrder actionName action = .ok requestBytes)
    (hdo : lib.Do (newRequest actionName url requestBytes) = .ok response)
    (hbody : response.ContentLength = 0 → response.Body = "")
    (hempty : ∀ env, lib.Decode "" newSOAPEnvelope ≠ .ok env)
    (hdec : lib.Decode response.Body newSOAPEnvelope = .ok responseEnv)
    (hfault : responseEnv.Body.Fault =
      some { FaultCode := c, FaultString := s, Detail := detail }) :
    (PerformAction lib actionName url action responseAction).1 =
        some (.soapFault { FaultCode := c, FaultString := s, Detail := detail }) ∧
      (PerformAction lib actionName url action responseAction).1 ≠ none ∧
      (∀ msg, (PerformAction lib actionName url action responseAction).1 ≠
        some (.errorString msg)) ∧
      (PerformAction lib actionName url action responseAction).2 = responseAction := by
  have hlen : response.ContentLength ≠ 0 := by
    intro h0
    rw [hbody h0] at hdec
    exact hempty responseEnv hdec
  have hguard : ¬ (response.StatusCode ≠ 200 ∧ response.ContentLength = 0) :=
    fun h => hlen h.2
  have hrun : PerformAction lib actionName url action responseAction =
      (some (.soapFault { FaultCode := c, FaultString := s, Detail := detail }),
        responseAction) := by
    rw [PerformAction_of_response lib actionName url action responseAction requestBytes
      response henc hdo]
    simp only [hguard, if_false, hdec, hfault]
  rw [hrun]
  refine ⟨rfl, ?_, ?_, rfl⟩
  · simp
  · intro msg h
    injection h with h
    cases h

/-- C1 on the canned fault (500, InvalidArgs) delivered with status 500 and its 254 bytes
of body. -/
theorem C1_fault_returned_witness :
    (PerformAction (cannedLib ⟨"500 Internal Server Error", 500, 254, faultBody⟩)
        AddPortMappingAction (some cannedURL) none none).1 =
        some (.soapFault { FaultCode := "500", FaultString := "InvalidArgs", Detail := "" }) ∧
      (PerformAction (cannedLib ⟨"500 Internal Server Error", 500, 254, faultBody⟩)
        AddPortMappingAction (some cannedURL) none none).1 ≠ none ∧
      (∀ msg, (PerformAction (cannedLib ⟨"500 Internal Server Error", 500, 254, faultBody⟩)
        AddPortMappingAction (some cannedURL) none none).1 ≠ some (.errorString msg)) ∧
      (PerformAction (cannedLib ⟨"500 Internal Server Error", 500, 254, faultBody⟩)
        AddPortMappingAction (some cannedURL) none none).2 = none :=
  C1_fault_returned (cannedLib ⟨"500 Internal Server Error", 500, 254, faultBody⟩)
    AddPortMappingAction (some cannedURL) none none _
    ⟨"500 Internal Server Error", 500, 254, faultBody⟩ _ "500" "InvalidArgs" ""
    (encodeRequestAction_none _ _) rfl
    (fun h => absurd h (by decide))
    (fun env h => by
      have h2 : (Except.error (GoError.errorString "EOF") : Except GoError soapEnvelope)
          = .ok env := h
      cases h2)
    rfl rfl

/-! ## C2 -/

/-- C2, as stated, fails: the canned response with status 404, `ContentLength` 9 and the
body "Not Found" has no fault and a status other than 200, and `PerformAction` returns the
body decoding error, not "SOAP request got HTTP 404 Not Found". -/
theorem C2_decode_error_before_status :
    (cannedLib ⟨"404 Not Found", 404, 9, "Not Found"⟩).Decode "Not Found" newSOAPEnvelope
        = .error (.errorString "EOF") ∧
      (PerformAction (cannedLib ⟨"404 Not Found", 404, 9, "Not Found"⟩)
        GetExternalIPAddressAction (some cannedURL) none none).1
        = some (.errorString "error decoding response body: EOF") ∧
      (PerformAction (cannedLib ⟨"404 Not Found", 404, 9, "Not Found"⟩)
        GetExternalIPAddressAction (some cannedURL) none none).1
        ≠ some (.errorString "SOAP request got HTTP 404 Not Found") := by
  refine ⟨rfl, rfl, ?_⟩
  decide

/-- C2, amended: for a received response with a status other than 200 whose body carries no
fault, `PerformAction` returns "SOAP request got HTTP <status>" when `ContentLength` is 0 or
the body decodes to an envelope, and returns the body decoding error when `ContentLength` is
not 0 and the body does not decode. -/
theorem C2_non200_without_fault (lib : Lib) (actionName : String) (url : Option URL)
    (action : Option SoapAction) (responseAction : Option ResponseAction)
    (requestBytes : String) (response : Response)
    (henc : encodeRequestAction lib.rangeOrder actionName action = .ok requestBytes)
    (hdo : lib.Do (newRequest actionName url requestBytes) = .ok response)
    (hstatus : response.StatusCode ≠ 200)
    (hnofault : ∀ responseEnv, lib.Decode response.Body newSOAPEnvelope = .ok responseEnv →
      responseEnv.Body.Fault = none) :
    ((response.ContentLength = 0 ∨
        ∃ responseEnv, lib.Decode response.Body newSOAPEnvelope = .ok responseEnv) →
      PerformAction lib actionName url action responseAction =
        (some (.errorString ("SOAP request got HTTP " ++ response.Status)), responseAction)) ∧
    (∀ err, response.ContentLength ≠ 0 →
      lib.Decode response.Body newSOAPEnvelope = .error err →
      PerformAction lib actionName url action responseAction =
        (some (.errorString ("error decoding response body: " ++ err.Error)),
          responseAction)) := by
  rw [PerformAction_of_response lib actionName url action responseAction requestBytes response
    henc hdo]
  constructor
  · intro h
    by_cases hlen : response.ContentLength = 0
    · simp [hstatus, hlen]
    · rcases h with h | ⟨responseEnv, hdec⟩
      · exact absurd h hlen
      · simp [hstatus, hlen, hdec, hnofault responseEnv hdec]
  · intro err hlen hdec
    simp [hlen, hdec]

/-- C2, amended, on canned responses with status 500: an empty body with `ContentLength` 0
and a decodable envelope without fault both give "SOAP request got HTTP 500 ...". -/
theorem C2_non200_without_fault_witness :
    PerformAction (cannedLib ⟨"500 Internal Server Error", 500, 0, ""⟩)
        DeletePortMappingAction (some cannedURL) none none
        = (some (.errorString "SOAP request got HTTP 500 Internal Server Error"), none) :=
  (C2_non200_without_fault (cannedLib ⟨"500 Internal Server Error", 500, 0, ""⟩)
    DeletePortMappingAction (some cannedURL) none none _
    ⟨"500 Internal Server Error", 500, 0, ""⟩
    (encodeRequestAction_none _ _) rfl (by decide)
    (by
      intro responseEnv h
      have h2 : (Except.error (GoError.errorString "EOF") : Except GoError soapEnvelope)
          = .ok responseEnv := h
      cases h2)).1 (Or.inl rfl)

/-! ## C4 -/

/-- The source's escaping of one character is the specification's. -/
theorem replaceEntity_eq_specEntity (c : Char) :
    (if xmlCharRx c then (replaceEntity (String.singleton c)).data else [c]) = specEntity c := by
  by_cases h1 : c = '<'
  · subst h1; rfl
  · by_cases h2 : c = '>'
    · subst h2; rfl
    · by_cases h3 : c = '&'
      · subst h3; rfl
      · simp [xmlCharRx, specEntity, h1, h2, h3]

/-- The source's escaping is the specification's, character by character. -/
theorem ReplaceAllStringFunc_eq_flatMap (l : List Char) :
    ReplaceAllStringFunc xmlCharRx l replaceEntity = l.flatMap specEntity := by
  induction l with
  | nil => rfl
  | cons c l ih =>
    rw [ReplaceAllStringFunc, ih, replaceEntity_eq_specEntity, List.flatMap_cons]

/-- Reading back the escaped characters gives the characters. -/
theorem unescapeXMLChars_flatMap (l : List Char) :
    unescapeXMLChars 0 (l.flatMap specEntity) = l := by
  induction l with
  | nil => rfl
  | cons c l ih =>
    rw [List.flatMap_cons]
    by_cases h1 : c = '<'
    · subst h1
      simp [specEntity, unescapeXMLChars, entityAt, ih]
    · by_cases h2 : c = '>'
      · subst h2
        simp [specEntity, unescapeXMLChars, entityAt, ih]
      · by_cases h3 : c = '&'
        · subst h3
          simp [specEntity, unescapeXMLChars, entityAt, ih]
        · have hc : ¬ '&' = c := fun h => h3 h.symm
          simp [specEntity, h1, h2, h3, hc, unescapeXMLChars, entityAt, List.isPrefixOf, ih]

/-- C4: `escapeXMLText s` is `s` with each `<`, `>`, `&` replaced by `&lt;`, `&gt;`, `&amp;`
and every other character kept in place, and replacing the three entities back in it gives
`s` again. -/
theorem C4_escapeXMLText_spec_and_roundtrip (s : String) :
    (escapeXMLText s).data = s.data.flatMap specEntity ∧
      unescapeXMLText (escapeXMLText s) = s := by
  have h : (escapeXMLText s).data = s.data.flatMap specEntity :=
    ReplaceAllStringFunc_eq_flatMap s.data
  refine ⟨h, ?_⟩
  unfold unescapeXMLText
  rw [h, unescapeXMLChars_flatMap]

/-! ## The bytes of a request -/

/-- Joining strings from an initial string. -/
theorem foldl_append_init (l : List String) :
    ∀ init : String, List.foldl (fun r s => r ++ s) init l = init ++ String.join l := by
  induction l with
  | nil => intro init; simp [String.join]
  | cons a l ih =>
    intro init
    have hjoin : String.join (a :: l) = List.foldl (fun r s => r ++ s) ("" ++ a) l := rfl
    rw [List.foldl_cons, ih (init ++ a), hjoin, ih ("" ++ a)]
    simp [String.append_assoc]

/-- Joining a list of strings, head first. -/
theorem join_cons (a : String) (l : List String) : String.join (a :: l) = a ++ String.join l := by
  have hjoin : String.join (a :: l) = List.foldl (fun r s => r ++ s) ("" ++ a) l := rfl
  rw [hjoin, foldl_append_init l ("" ++ a)]
  simp

/-- The loop of `encodeRequestArgs` over parameters with non-empty names: it succeeds, the
written and the pending bytes together grow by the elements of the parameters in the order
visited, and the stack of open tags is as before. -/
theorem encodeRequestArgsLoop_ok (ps : List (String × String)) :
    ∀ (enc : Encoder) (w : String), (∀ p ∈ ps, p.1 ≠ "") →
      ∃ enc1 w1, encodeRequestArgsLoop ps enc w = .ok (enc1, w1) ∧
        w1 ++ enc1.buf = w ++ enc.buf ++ String.join (ps.map paramElement) ∧
        enc1.tags = enc.tags := by
  induction ps with
  | nil =>
    intro enc w _
    exact ⟨enc, w, rfl, by simp [String.join], rfl⟩
  | cons p ps ih =>
    intro enc w hne
    obtain ⟨field, value⟩ := p
    have hfield : field ≠ "" := hne (field, value) (List.mem_cons_self _ _)
    have hrest : ∀ q ∈ ps, q.1 ≠ "" := fun q hq => hne q (List.mem_cons_of_mem _ hq)
    obtain ⟨enc1, w1, hloop, hbytes, htags⟩ :=
      ih { buf := "</" ++ field ++ ">", tags := enc.tags }
        (w ++ (enc.buf ++ "<" ++ field ++ ">") ++ escapeXMLText value) hrest
    refine ⟨enc1, w1, ?_, ?_, htags⟩
    · simp only [encodeRequestArgsLoop, Encoder.EncodeToken, Encoder.Flush, hfield, if_false,
        if_true]
      simpa using hloop
    · rw [hbytes, List.map_cons, join_cons]
      simp [paramElement, String.append_assoc]

/-- The request bytes for parameters with non-empty names: the fixed opening, the action
start tag, the elements of the parameters in the order visited, the action end tag and the
fixed closing. -/
theorem encodeRequestAction_some (rangeOrder : List (String × String) → List (String × String))
    (actionName : String) (params : List (String × String))
    (hne : ∀ p ∈ rangeOrder params, p.1 ≠ "") :
    encodeRequestAction rangeOrder actionName (some { Params := params }) =
      .ok ( soapPrefix ++ "<u:" ++ EscapeText actionName ++ " xmlns:u=\"" ++
        EscapeText URN_WANPPPConnection_1 ++ "\">" ++
        String.join ((rangeOrder params).map paramElement) ++
        "</u:" ++ EscapeText actionName ++ ">" ++ soapSuffix) := by
  obtain ⟨enc1, w1, hloop, hbytes, _⟩ :=
    encodeRequestArgsLoop_ok (rangeOrder params) NewEncoder
      ("" ++ soapPrefix ++ "<u:" ++ EscapeText actionName ++ " xmlns:u=\"" ++
        EscapeText URN_WANPPPConnection_1 ++ "\">") hne
  have hflush : (enc1.Flush w1).2 = w1 ++ enc1.buf := rfl
  simp only [encodeRequestAction, encodeRequestArgs, hloop, hflush, hbytes]
  simp [NewEncoder, String.append_assoc]

/-- A name without characters that need escaping is written as it is. -/
theorem EscapeText_of_needsNoEscape (s : String) (h : ∀ c ∈ s.data, needsNoEscape c = true) :
    EscapeText s = s := by
  have hl : ∀ l : List Char, (∀ c ∈ l, needsNoEscape c = true) → l.flatMap escapeTextChar = l := by
    intro l
    induction l with
    | nil => intro _; rfl
    | cons c l ih =>
      intro hc
      have h1 := hc c (List.mem_cons_self _ _)
      have h2 := ih fun d hd => hc d (List.mem_cons_of_mem _ hd)
      rw [List.flatMap_cons, h2]
      simp only [needsNoEscape, Bool.and_eq_true, decide_eq_true_eq, bne_iff_ne, ne_eq,
        Bool.not_eq_true', decide_eq_false_iff_not] at h1
      obtain ⟨⟨⟨⟨⟨⟨⟨⟨a1, a2⟩, a3⟩, a4⟩, a5⟩, a6⟩, a7⟩, a8⟩, a9⟩ := h1
      simp [escapeTextChar, a1, a2, a3, a4, a5, a6, a7, a8, a9]
  unfold EscapeText
  rw [hl s.data h]

/-- A value without `<`, `>`, `&` is written as it is. -/
theorem escapeXMLText_of_plain (s : String) (h : ∀ c ∈ s.data, xmlCharRx c = false) :
    escapeXMLText s = s := by
  have hl : ∀ l : List Char, (∀ c ∈ l, xmlCharRx c = false) →
      ReplaceAllStringFunc xmlCharRx l replaceEntity = l := by
    intro l
    induction l with
    | nil => intro _; rfl
    | cons c l ih =>
      intro hc
      have h1 := hc c (List.mem_cons_self _ _)
      have h2 := ih fun d hd => hc d (List.mem_cons_of_mem _ hd)
      simp [ReplaceAllStringFunc, h1, h2]
  unfold escapeXMLText
  rw [hl s.data h]

/-- The service name space is written as it is. -/
theorem EscapeText_URN : EscapeText URN_WANPPPConnection_1 = URN_WANPPPConnection_1 := by
  decide

/-! ## C5 -/

/-- C5, as stated, fails: between the XML declaration and the `s:Envelope` start tag the
request has a line feed, so the bytes are not the literal envelope of the specification. -/
theorem C5_line_feed_after_declaration :
    encodeRequestAction id "DeletePortMapping" (some { Params := [("NewProtocol", "TCP")] }) =
      .ok ("<?xml version=\"1.0\" encoding=\"UTF-8\"?>" ++ "\n" ++ "<s:Envelope xmlns:s=\"http://schemas.xmlsoap.org/soap/envelope/\" s:encodingStyle=\"http://schemas.xmlsoap.org/soap/encoding/\"><s:Body><u:DeletePortMapping xmlns:u=\"urn:schemas-upnp-org:service:WANPPPConnection:1\"><NewProtocol>TCP</NewProtocol></u:DeletePortMapping></s:Body></s:Envelope>") ∧
    encodeRequestAction id "DeletePortMapping" (some { Params := [("NewProtocol", "TCP")] }) ≠
      .ok ("<?xml version=\"1.0\" encoding=\"UTF-8\"?>" ++ "<s:Envelope xmlns:s=\"http://schemas.xmlsoap.org/soap/envelope/\" s:encodingStyle=\"http://schemas.xmlsoap.org/soap/encoding/\"><s:Body><u:DeletePortMapping xmlns:u=\"urn:schemas-upnp-org:service:WANPPPConnection:1\"><NewProtocol>TCP</NewProtocol></u:DeletePortMapping></s:Body></s:Envelope>") := by
  have h : encodeRequestAction id "DeletePortMapping"
      (some { Params := [("NewProtocol", "TCP")] }) =
      .ok ("<?xml version=\"1.0\" encoding=\"UTF-8\"?>" ++ "\n" ++ "<s:Envelope xmlns:s=\"http://schemas.xmlsoap.org/soap/envelope/\" s:encodingStyle=\"http://schemas.xmlsoap.org/soap/encoding/\"><s:Body><u:DeletePortMapping xmlns:u=\"urn:schemas-upnp-org:service:WANPPPConnection:1\"><NewProtocol>TCP</NewProtocol></u:DeletePortMapping></s:Body></s:Envelope>") := rfl
  refine ⟨h, ?_⟩
  rw [h]
  intro heq
  injection heq with heq
  exact absurd heq (by decide)

/-- C5, amended: for an action name without characters that need escaping and parameters
with non-empty names and values without `<`, `>`, `&`, the request bytes are the XML
declaration, one line feed, the `s:Envelope` and `s:Body` start tags, the action start tag
with the service name space, one `<Name>value</Name>` element per parameter in the order in
which `Params` is iterated, the action end tag and the closing of body and envelope, and
nothing else. -/
theorem C5_request_bytes (rangeOrder : List (String × String) → List (String × String))
    (actionName : String) (params : List (String × String))
    (hperm : (rangeOrder params).Perm params)
    (hname : ∀ c ∈ actionName.data, needsNoEscape c = true)
    (hparams : ∀ p ∈ params, p.1 ≠ "" ∧ ∀ c ∈ p.2.data, xmlCharRx c = false) :
    encodeRequestAction rangeOrder actionName (some { Params := params }) =
      .ok ("<?xml version=\"1.0\" encoding=\"UTF-8\"?>" ++ "\n" ++
        "<s:Envelope xmlns:s=\"http://schemas.xmlsoap.org/soap/envelope/\" s:encodingStyle=\"http://schemas.xmlsoap.org/soap/encoding/\">" ++
        "<s:Body>" ++
        "<u:" ++ actionName ++ " xmlns:u=\"urn:schemas-upnp-org:service:WANPPPConnection:1\">" ++
        String.join ((rangeOrder params).map fun p => "<" ++ p.1 ++ ">" ++ p.2 ++ "</" ++ p.1 ++ ">") ++
        "</u:" ++ actionName ++ ">" ++ "</s:Body></s:Envelope>") := by
  have hne : ∀ p ∈ rangeOrder params, p.1 ≠ "" := fun p hp => (hparams p (hperm.subset hp)).1
  have hmap : (rangeOrder params).map paramElement =
      (rangeOrder params).map fun p => "<" ++ p.1 ++ ">" ++ p.2 ++ "</" ++ p.1 ++ ">" := by
    apply List.map_congr_left
    intro p hp
    simp only [paramElement, escapeXMLText_of_plain p.2 (hparams p (hperm.subset hp)).2]
  rw [encodeRequestAction_some rangeOrder actionName params hne,
    EscapeText_of_needsNoEscape actionName hname, EscapeText_URN, hmap]
  have hpre : soapPrefix = "<?xml version=\"1.0\" encoding=\"UTF-8\"?>" ++ "\n" ++
      "<s:Envelope xmlns:s=\"http://schemas.xmlsoap.org/soap/envelope/\" s:encodingStyle=\"http://schemas.xmlsoap.org/soap/encoding/\">" ++
      "<s:Body>" := by decide
  have hsuf : soapSuffix = "</s:Body></s:Envelope>" := rfl
  have hurn : URN_WANPPPConnection_1 = "urn:schemas-upnp-org:service:WANPPPConnection:1" := rfl
  rw [hpre, hsuf, hurn]
  simp only [String.append_assoc]
  rfl

/-- C5, amended, on the three parameters of `DeletePortMapping` visited as listed. -/
theorem C5_request_bytes_witness :
    encodeRequestAction id "DeletePortMapping"
        (some { Params := [("NewRemoteHost", ""), ("NewExternalPort", "8080"),
          ("NewProtocol", "TCP")] }) =
      .ok ("<?xml version=\"1.0\" encoding=\"UTF-8\"?>" ++ "\n" ++
        "<s:Envelope xmlns:s=\"http://schemas.xmlsoap.org/soap/envelope/\" s:encodingStyle=\"http://schemas.xmlsoap.org/soap/encoding/\">" ++
        "<s:Body>" ++
        "<u:" ++ "DeletePortMapping" ++ " xmlns:u=\"urn:schemas-upnp-org:service:WANPPPConnection:1\">" ++
        String.join ((id [("NewRemoteHost", ""), ("NewExternalPort", "8080"),
          ("NewProtocol", "TCP")]).map
            fun p => "<" ++ p.1 ++ ">" ++ p.2 ++ "</" ++ p.1 ++ ">") ++
        "</u:" ++ "DeletePortMapping" ++ ">" ++ "</s:Body></s:Envelope>") :=
  C5_request_bytes id "DeletePortMapping"
    [("NewRemoteHost", ""), ("NewExternalPort", "8080"), ("NewProtocol", "TCP")]
    (List.Perm.refl _) (by decide) (by decide)

/-! ## C6 -/

/-- C6, as stated, fails: the same two parameters visited in the listed order and in the
reverse order (both orders a Go map allows) give different request bytes. -/
theorem C6_bytes_depend_on_iteration_order :
    (List.reverse [("NewRemoteHost", ""), ("NewProtocol", "TCP")]).Perm
        [("NewRemoteHost", ""), ("NewProtocol", "TCP")] ∧
    encodeRequestAction id "DeletePortMapping"
        (some { Params := [("NewRemoteHost", ""), ("NewProtocol", "TCP")] }) =
      .ok ( soapPrefix ++ "<u:DeletePortMapping xmlns:u=\"urn:schemas-upnp-org:service:WANPPPConnection:1\">" ++
        "<NewRemoteHost></NewRemoteHost><NewProtocol>TCP</NewProtocol>" ++
        "</u:DeletePortMapping>" ++ soapSuffix) ∧
    encodeRequestAction List.reverse "DeletePortMapping"
        (some { Params := [("NewRemoteHost", ""), ("NewProtocol", "TCP")] }) =
      .ok ( soapPrefix ++ "<u:DeletePortMapping xmlns:u=\"urn:schemas-upnp-org:service:WANPPPConnection:1\">" ++
        "<NewProtocol>TCP</NewProtocol><NewRemoteHost></NewRemoteHost>" ++
        "</u:DeletePortMapping>" ++ soapSuffix) ∧
    encodeRequestAction id "DeletePortMapping"
        (some { Params := [("NewRemoteHost", ""), ("NewProtocol", "TCP")] }) ≠
      encodeRequestAction List.reverse "DeletePortMapping"
        (some { Params := [("NewRemoteHost", ""), ("NewProtocol", "TCP")] }) := by
  have h1 : encodeRequestAction id "DeletePortMapping"
        (some { Params := [("NewRemoteHost", ""), ("NewProtocol", "TCP")] }) =
      .ok ( soapPrefix ++ "<u:DeletePortMapping xmlns:u=\"urn:schemas-upnp-org:service:WANPPPConnection:1\">" ++
        "<NewRemoteHost></NewRemoteHost><NewProtocol>TCP</NewProtocol>" ++
        "</u:DeletePortMapping>" ++ soapSuffix) := rfl
  have h2 : encodeRequestAction List.reverse "DeletePortMapping"
        (some { Params := [("NewRemoteHost", ""), ("NewProtocol", "TCP")] }) =
      .ok ( soapPrefix ++ "<u:DeletePortMapping xmlns:u=\"urn:schemas-upnp-org:service:WANPPPConnection:1\">" ++
        "<NewProtocol>TCP</NewProtocol><NewRemoteHost></NewRemoteHost>" ++
        "</u:DeletePortMapping>" ++ soapSuffix) := rfl
  refine ⟨List.reverse_perm _, h1, h2, ?_⟩
  rw [h1, h2]
  intro heq
  injection heq with heq
  exact absurd heq (by decide)

/-- C6, amended: the request bytes are a function of the action name and of the order in
which `Params` is iterated. Two runs that visit the parameters in the same order produce the
same bytes; with at most one parameter, and for a nil request, every iteration order gives
the same bytes. -/
theorem C6_bytes_determined_by_iteration_order
    (order1 order2 : List (String × String) → List (String × String))
    (actionName : String) (params : List (String × String)) :
    (order1 params = order2 params →
      encodeRequestAction order1 actionName (some { Params := params }) =
        encodeRequestAction order2 actionName (some { Params := params })) ∧
    ((order1 params).Perm params → (order2 params).Perm params → params.length ≤ 1 →
      encodeRequestAction order1 actionName (some { Params := params }) =
        encodeRequestAction order2 actionName (some { Params := params })) ∧
    encodeRequestAction order1 actionName none = encodeRequestAction order2 actionName none := by
  have hsame : order1 params = order2 params →
      encodeRequestAction order1 actionName (some { Params := params }) =
        encodeRequestAction order2 actionName (some { Params := params }) := by
    intro h
    simp only [encodeRequestAction, encodeRequestArgs, h]
  refine ⟨hsame, ?_, rfl⟩
  intro h1 h2 hlen
  apply hsame
  match params, hlen, h1, h2 with
  | [], _, h1, h2 => rw [List.perm_nil.mp h1, List.perm_nil.mp h2]
  | [p], _, h1, h2 => rw [List.perm_singleton.mp h1, List.perm_singleton.mp h2]
  | _ :: _ :: _, hlen, _, _ => simp at hlen

/-- C6, amended, on one parameter visited as listed and in reverse. -/
theorem C6_bytes_determined_by_iteration_order_witness :
    encodeRequestAction id "DeletePortMapping" (some { Params := [("NewProtocol", "TCP")] }) =
      encodeRequestAction List.reverse "DeletePortMapping"
        (some { Params := [("NewProtocol", "TCP")] }) :=
  (C6_bytes_determined_by_iteration_order id List.reverse "DeletePortMapping"
    [("NewProtocol", "TCP")]).2.1 (List.Perm.refl _) (List.reverse_perm _) (by decide)

/-! ## Decimal formatting -/

/-- One decimal digit: its character is a digit with the digit's value. -/
theorem digitChar_spec : ∀ k, k < 10 →
    (Nat.digitChar k).isDigit = true ∧ (Nat.digitChar k).toNat - '0'.toNat = k ∧
      (k ≠ 0 → Nat.digitChar k ≠ '0') := by
  decide

/-- The digit loop of `Nat.repr`: with enough fuel it puts in front of `ds` a non-empty
block of digits that denotes `n` and starts with `0` only when `n` is 0. -/
theorem toDigitsCore_spec (fuel : Nat) :
    ∀ (n : Nat) (ds : List Char), n < fuel →
      ∃ pre : List Char, Nat.toDigitsCore 10 fuel n ds = pre ++ ds ∧
        (∀ c ∈ pre, c.isDigit = true) ∧ pre ≠ [] ∧
        (pre.head? = some '0' → n = 0) ∧ (n = 0 → pre = ['0']) ∧
        pre.foldl (fun acc c => 10 * acc + (c.toNat - '0'.toNat)) 0 = n := by
  induction fuel with
  | zero => intro n ds h; omega
  | succ fuel ih =>
    intro n ds hlt
    have hd := digitChar_spec (n % 10) (Nat.mod_lt _ (by decide))
    by_cases hq : n / 10 = 0
    · have hn : n < 10 := by omega
      have hmod : n % 10 = n := Nat.mod_eq_of_lt hn
      rw [hmod] at hd
      refine ⟨[Nat.digitChar n], ?_, ?_, by simp, ?_, ?_, ?_⟩
      · simp [Nat.toDigitsCore, hq, hmod]
      · intro c hc
        rw [List.mem_singleton.mp hc]
        exact hd.1
      · intro h0
        by_contra hne
        have := hd.2.2 hne
        simp at h0
        exact this h0
      · intro h0; subst h0; rfl
      · simpa using hd.2.1
    · have hlt2 : n / 10 < fuel := by omega
      obtain ⟨pre, hpre, hdig, hne, hhead, _, hval⟩ :=
        ih (n / 10) (Nat.digitChar (n % 10) :: ds) hlt2
      refine ⟨pre ++ [Nat.digitChar (n % 10)], ?_, ?_, by simp, ?_, ?_, ?_⟩
      · simp [Nat.toDigitsCore, hq, hpre]
      · intro c hc
        rcases List.mem_append.mp hc with h | h
        · exact hdig c h
        · rw [List.mem_singleton.mp h]; exact hd.1
      · intro h0
        cases pre with
        | nil => exact absurd rfl hne
        | cons a pre =>
          have := hhead (by simpa using h0)
          exact absurd this hq
      · intro h0; subst h0; simp at hq
      · rw [List.foldl_append, hval]
        simp only [List.foldl_cons, List.foldl_nil, hd.2.1]
        omega

/-- What `strconv.FormatUint(v, 10)` gives is an unsigned decimal numeral that denotes
`v`. -/
theorem FormatUint10_spec (v : Nat) :
    isDecimalNumeral (FormatUint10 v) = true ∧ decimalValue (FormatUint10 v) = v := by
  obtain ⟨pre, hpre, hdig, hne, hhead, hzero, hval⟩ := toDigitsCore_spec (v + 1) v [] (by omega)
  have hdata : (FormatUint10 v).data = pre := by
    simp [FormatUint10, Nat.repr, Nat.toDigits, hpre, List.asString]
  constructor
  · simp only [isDecimalNumeral, hdata, Bool.and_eq_true, Bool.or_eq_true, List.all_eq_true,
      decide_eq_true_eq]
    refine ⟨⟨hdig, hne⟩, ?_⟩
    by_cases h0 : pre.head? = some '0'
    · right
      have hv := hzero (hhead h0)
      apply String.ext
      rw [hdata, hv]
    · left; exact h0
  · simp only [decimalValue, hdata, hval]

/-! ## C7 -/

/-- C7: with a non-nil control URL, `AddPortMapping` returns what `PerformAction` returns
for the action "AddPortMapping", that URL, no result shape and the parameter set of exactly
the eight names NewRemoteHost, NewExternalPort, NewProtocol, NewInternalPort,
NewInternalClient, NewEnabled, NewPortMappingDescription, NewLeaseDuration, in which the two
ports and the lease duration are the unsigned decimal numerals of the numbers, NewEnabled is
"1" or "0" and the strings are passed unchanged; ports 8080, enabled and lease 0 give
"8080", "8080", "1", "0". -/
theorem C7_AddPortMapping_parameters (lib : Lib)
    (newRemoteHost newInternalClient newProtocol newPortMappingDescription : String)
    (newExternalPort newInternalPort : Nat) (newEnabled : Bool) (newLeaseDuration : Nat)
    (clientURL : URL) :
    AddPortMapping lib newRemoteHost newInternalClient newProtocol newPortMappingDescription
        newExternalPort newInternalPort newEnabled newLeaseDuration (some clientURL) =
      (PerformAction lib "AddPortMapping" (some clientURL)
        (some { Params := [
          ("NewRemoteHost", newRemoteHost),
          ("NewExternalPort", FormatUint10 newExternalPort),
          ("NewProtocol", newProtocol),
          ("NewInternalPort", FormatUint10 newInternalPort),
          ("NewInternalClient", newInternalClient),
          ("NewEnabled", if newEnabled then "1" else "0"),
          ("NewPortMappingDescription", newPortMappingDescription),
          ("NewLeaseDuration", FormatUint10 newLeaseDuration)] }) none).1 ∧
    ["NewRemoteHost", "NewExternalPort", "NewProtocol", "NewInternalPort", "NewInternalClient",
      "NewEnabled", "NewPortMappingDescription", "NewLeaseDuration"].Nodup ∧
    (isDecimalNumeral (FormatUint10 newExternalPort) = true ∧
      decimalValue (FormatUint10 newExternalPort) = newExternalPort) ∧
    (isDecimalNumeral (FormatUint10 newInternalPort) = true ∧
      decimalValue (FormatUint10 newInternalPort) = newInternalPort) ∧
    (isDecimalNumeral (FormatUint10 newLeaseDuration) = true ∧
      decimalValue (FormatUint10 newLeaseDuration) = newLeaseDuration) ∧
    AddPortMapping lib newRemoteHost newInternalClient newProtocol newPortMappingDescription
        8080 8080 true 0 (some clientURL) =
      (PerformAction lib "AddPortMapping" (some clientURL)
        (some { Params := [
          ("NewRemoteHost", newRemoteHost),
          ("NewExternalPort", "8080"),
          ("NewProtocol", newProtocol),
          ("NewInternalPort", "8080"),
          ("NewInternalClient", newInternalClient),
          ("NewEnabled", "1"),
          ("NewPortMappingDescription", newPortMappingDescription),
          ("NewLeaseDuration", "0")] }) none).1 := by
  refine ⟨?_, by decide, FormatUint10_spec _, FormatUint10_spec _, FormatUint10_spec _, ?_⟩
  · simp only [AddPortMapping, MarshalU16, MarshalU32, MarshalBoolean, AddPortMappingAction]
  · have h1 : FormatUint10 8080 = "8080" := by decide
    have h2 : FormatUint10 0 = "0" := by decide
    simp only [AddPortMapping, MarshalU16, MarshalU32, MarshalBoolean, AddPortMappingAction,
      h1, h2, if_true]

/-! ## `strings.Split` -/

/-- After a separator is matched its remaining characters are skipped. -/
theorem splitChars_skip (sep pre rest : List Char) :
    splitChars sep pre.length (pre ++ rest) = splitChars sep 0 rest := by
  induction pre with
  | nil => rfl
  | cons c pre ih => simpa [splitChars] using ih

/-- A text in which the separator does not occur is one piece. -/
theorem splitChars_of_no_occurrence (sep : List Char) (l : List Char) :
    (∀ t, t <:+ l → sep.isPrefixOf t = false) → splitChars sep 0 l = [l] := by
  induction l with
  | nil => intro _; rfl
  | cons c l ih =>
    intro h
    have h1 : sep.isPrefixOf (c :: l) = false := h (c :: l) (List.suffix_refl _)
    have h2 : splitChars sep 0 l = [l] :=
      ih fun t ht => h t (ht.trans (List.suffix_cons c l))
    simp [splitChars, h1, h2]

/-- A text that starts with the separator: an empty piece, then the pieces of the rest. -/
theorem splitChars_sep_append (sep l : List Char) (hsep : sep ≠ []) :
    splitChars sep 0 (sep ++ l) = [] :: splitChars sep 0 l := by
  cases sep with
  | nil => exact absurd rfl hsep
  | cons c sep =>
    have hpre : (c :: sep).isPrefixOf (c :: (sep ++ l)) = true := by
      rw [List.isPrefixOf_iff_prefix]
      exact List.prefix_append (c :: sep) l
    have hskip := splitChars_skip (c :: sep) sep l
    show splitChars (c :: sep) 0 (c :: (sep ++ l)) = [] :: splitChars (c :: sep) 0 l
    rw [splitChars, if_pos hpre]
    simp only [List.length_cons, Nat.add_sub_cancel]
    rw [hskip]

/-- A text that starts with a separator of seven characters has two slashes among them when
the separator is `http://`. -/
theorem count_slash_of_http_prefix (t : List Char)
    (h : "http://".data.isPrefixOf t = true) : 2 ≤ t.count '/' := by
  rw [List.isPrefixOf_iff_prefix] at h
  obtain ⟨r, rfl⟩ := h
  rw [List.count_append]
  have : List.count '/' "http://".data = 2 := by decide
  omega

/-- The pieces of `host/path` at `/` are the host and the path when neither has a slash. -/
theorem splitChars_slash (host path : List Char) (hhost : '/' ∉ host) (hpath : '/' ∉ path) :
    splitChars ['/'] 0 (host ++ '/' :: path) = [host, path] := by
  induction host with
  | nil =>
    have hp : splitChars ['/'] 0 path = [path] := by
      apply splitChars_of_no_occurrence
      intro t ht
      cases t with
      | nil => rfl
      | cons d t =>
        have hd : d ∈ path := ht.subset (List.mem_cons_self _ _)
        have hne : ¬ '/' = d := fun h => hpath (h ▸ hd)
        simp [List.isPrefixOf, hne]
    simp [splitChars, List.isPrefixOf, hp]
  | cons c host ih =>
    have hc : ¬ '/' = c := fun h => hhost (h ▸ List.mem_cons_self _ _)
    have ih2 := ih fun h => hhost (List.mem_cons_of_mem _ h)
    simp [splitChars, List.isPrefixOf, hc, ih2]

/-- The two splits of `InitDevice` on an address `http://host/path` whose host and path have
no slash: the scheme is split off, then host and path are the two pieces. -/
theorem Split_address (host path : String) (hhost : '/' ∉ host.data) (hpath : '/' ∉ path.data) :
    Split ("http://" ++ host ++ "/" ++ path) "http://" = ["", host ++ "/" ++ path] ∧
      Split (host ++ "/" ++ path) "/" = [host, path] := by
  have hcount : List.count '/' (host.data ++ '/' :: path.data) = 1 := by
    rw [List.count_append, List.count_cons_self, List.count_eq_zero_of_not_mem hhost,
      List.count_eq_zero_of_not_mem hpath]
  have hrest : splitChars "http://".data 0 (host.data ++ '/' :: path.data) =
      [host.data ++ '/' :: path.data] := by
    apply splitChars_of_no_occurrence
    intro t ht
    by_contra hpre
    have h2 := count_slash_of_http_prefix t (by simpa using hpre)
    have h1 := ht.sublist.count_le '/'
    omega
  have hd1 : ("http://" ++ host ++ "/" ++ path).data =
      "http://".data ++ (host.data ++ '/' :: path.data) := by
    simp [String.data_append]
  have hd2 : (host ++ "/" ++ path).data = host.data ++ '/' :: path.data := by
    simp [String.data_append]
  have hs1 : ("http://" : String) ≠ "" := by decide
  have hs2 : ("/" : String) ≠ "" := by decide
  constructor
  · simp only [Split, hs1, if_false, hd1]
    rw [splitChars_sep_append _ _ (by decide), hrest]
    simp only [List.map_cons, List.map_nil]
    congr 1
    congr 1
    apply String.ext
    rw [hd2]
  · simp only [Split, hs2, if_false, hd2]
    rw [splitChars_slash _ _ hhost hpath]
    rfl

/-! ## The rounds of `InitDevice` -/

/-- Records of other service types leave `address` as it is. -/
theorem scan_foldl_of_no_match (list : List Service) (init : String)
    (h : ∀ srv ∈ list, srv.ServiceType ≠ URN_WANIPConnection_1) :
    list.foldl (fun address srv =>
      if srv.ServiceType = URN_WANIPConnection_1 then srv.Location else address) init = init := by
  induction list generalizing init with
  | nil => rfl
  | cons srv list ih =>
    have h1 := h srv (List.mem_cons_self _ _)
    simp only [List.foldl_cons, h1, if_false]
    exact ih init fun s hs => h s (List.mem_cons_of_mem _ hs)

/-- An answer without a WANIPConnection record leaves `address` empty. -/
theorem scanAddress_of_no_match (list : List Service)
    (h : ∀ srv ∈ list, srv.ServiceType ≠ URN_WANIPConnection_1) : scanAddress list = "" :=
  scan_foldl_of_no_match list "" h

/-- The scan ends with the location of the last WANIPConnection record. -/
theorem scanAddress_last_match (before after : List Service) (srv : Service)
    (hsrv : srv.ServiceType = URN_WANIPConnection_1)
    (hafter : ∀ s ∈ after, s.ServiceType ≠ URN_WANIPConnection_1) :
    scanAddress (before ++ srv :: after) = srv.Location := by
  unfold scanAddress
  rw [List.foldl_append, List.foldl_cons]
  simp only [hsrv, if_true]
  exact scan_foldl_of_no_match after srv.Location hafter

/-- A round whose answer has no address: a query, a sleep, and the next round. -/
theorem InitDeviceLoop_miss (search : Nat → Except GoError (List Service))
    (parse : String → Except GoError URL) (timeSleep : Int) (fuel i : Nat)
    (trace : List Event) (list : List Service)
    (hsearch : search i = .ok list) (haddr : scanAddress list = "") :
    InitDeviceLoop search parse timeSleep (fuel + 1) i trace =
      InitDeviceLoop search parse timeSleep fuel (i + 1)
        (trace ++ [Event.Search 1 ""] ++ [Event.Sleep timeSleep]) := by
  simp only [InitDeviceLoop, hsearch, haddr, if_true]

/-- A round whose answer has the address `http://host/path` with one path segment: a query,
and the device for `host` is returned. -/
theorem InitDeviceLoop_hit (search : Nat → Except GoError (List Service))
    (parse : String → Except GoError URL) (timeSleep : Int) (fuel i : Nat)
    (trace : List Event) (list : List Service) (host path : String) (clientUrl : URL)
    (hsearch : search i = .ok list)
    (haddr : scanAddress list = "http://" ++ host ++ "/" ++ path)
    (hhost : '/' ∉ host.data) (hpath : '/' ∉ path.data)
    (hparse : parse ("http://" ++ host ++ clientURLEnd) = .ok clientUrl) :
    InitDeviceLoop search parse timeSleep (fuel + 1) i trace =
      ((some { location := host, clientURL := some clientUrl }, none),
        trace ++ [Event.Search 1 ""]) := by
  obtain ⟨h1, h2⟩ := Split_address host path hhost hpath
  have hne : "http://" ++ host ++ "/" ++ path ≠ "" := by
    intro h
    have := congrArg String.length h
    simp only [String.length_append] at this
    have h7 : "http://".length = 7 := by decide
    have h0 : "".length = 0 := by decide
    omega
  simp only [InitDeviceLoop, hsearch, haddr, hne, if_false, h1, List.length_cons,
    List.length_nil, ne_eq, not_true_eq_false, List.getD_cons_succ, List.getD_cons_zero, h2,
    hparse]

/-- The rounds depend on the answers only through the address scanned from them. -/
theorem InitDeviceLoop_congr (search1 search2 : Nat → Except GoError (List Service))
    (parse : String → Except GoError URL) (timeSleep : Int)
    (h : ∀ k, (search1 k).map scanAddress = (search2 k).map scanAddress) (fuel : Nat) :
    ∀ (i : Nat) (trace : List Event),
      InitDeviceLoop search1 parse timeSleep fuel i trace =
        InitDeviceLoop search2 parse timeSleep fuel i trace := by
  induction fuel with
  | zero => intro i trace; rfl
  | succ fuel ih =>
    intro i trace
    have hi := h i
    cases h1 : search1 i with
    | error e1 =>
      cases h2 : search2 i with
      | error e2 =>
        rw [h1, h2] at hi
        have he : e1 = e2 := by simpa [Except.map] using hi
        simp only [InitDeviceLoop, h1, h2, he]
      | ok l2 =>
        rw [h1, h2] at hi
        simp [Except.map] at hi
    | ok l1 =>
      cases h2 : search2 i with
      | error e2 =>
        rw [h1, h2] at hi
        simp [Except.map] at hi
      | ok l2 =>
        rw [h1, h2] at hi
        have hl : scanAddress l1 = scanAddress l2 := by simpa [Except.map] using hi
        simp only [InitDeviceLoop, h1, h2, hl, ih]

/-! ## C8 -/

/-- C8, as stated, fails: when every answer is empty `InitDevice` sleeps three times, once
after each of the three queries, the last one included, not twice. -/
theorem C8_three_sleeps :
    InitDevice (fun _ => .ok []) cannedParse =
      ((none, some (.errorString "no available internet gateway devices")),
        [Event.Search 1 "", Event.Sleep 500000000, Event.Search 1 "", Event.Sleep 500000000,
          Event.Search 1 "", Event.Sleep 500000000]) ∧
    searchCount (InitDevice (fun _ => .ok []) cannedParse).2 = 3 ∧
    sleepCount (InitDevice (fun _ => .ok []) cannedParse).2 = 3 ∧
    sleepCount (InitDevice (fun _ => .ok []) cannedParse).2 ≠ 2 := by
  decide

/-- C8, amended: when each of the first three answers of the discovery is a list without a
WANIPConnection v1 record, `InitDevice` makes exactly three queries and three sleeps of
500 ms, one after every query (the last included), and then returns no device and the error
"no available internet gateway devices". -/
theorem C8_no_gateway (search : Nat → Except GoError (List Service))
    (parse : String → Except GoError URL)
    (h : ∀ k, k < 3 → ∃ list, search k = .ok list ∧
      ∀ srv ∈ list, srv.ServiceType ≠ URN_WANIPConnection_1) :
    InitDevice search parse =
      ((none, some (.errorString "no available internet gateway devices")),
        [Event.Search 1 "", Event.Sleep (500 * Millisecond),
          Event.Search 1 "", Event.Sleep (500 * Millisecond),
          Event.Search 1 "", Event.Sleep (500 * Millisecond)]) ∧
    searchCount (InitDevice search parse).2 = 3 ∧ sleepCount (InitDevice search parse).2 = 3 := by
  obtain ⟨l0, hs0, hm0⟩ := h 0 (by decide)
  obtain ⟨l1, hs1, hm1⟩ := h 1 (by decide)
  obtain ⟨l2, hs2, hm2⟩ := h 2 (by decide)
  have hrun : InitDevice search parse =
      ((none, some (.errorString "no available internet gateway devices")),
        [Event.Search 1 "", Event.Sleep (500 * Millisecond),
          Event.Search 1 "", Event.Sleep (500 * Millisecond),
          Event.Search 1 "", Event.Sleep (500 * Millisecond)]) := by
    unfold InitDevice
    simp only []
    rw [InitDeviceLoop_miss search parse _ 2 0 [] l0 hs0 (scanAddress_of_no_match l0 hm0),
      InitDeviceLoop_miss search parse _ 1 1 _ l1 hs1 (scanAddress_of_no_match l1 hm1),
      InitDeviceLoop_miss search parse _ 0 2 _ l2 hs2 (scanAddress_of_no_match l2 hm2)]
    simp [InitDeviceLoop, Int.mul_comm]
  rw [hrun]
  exact ⟨rfl, by decide, by decide⟩

/-- C8, amended, on a discovery that only ever sees a WANPPPConnection service. -/
theorem C8_no_gateway_witness :
    InitDevice (fun _ => .ok [⟨URN_WANPPPConnection_1, "http://192.168.1.1:1780/desc.xml"⟩])
        cannedParse =
      ((none, some (.errorString "no available internet gateway devices")),
        [Event.Search 1 "", Event.Sleep (500 * Millisecond),
          Event.Search 1 "", Event.Sleep (500 * Millisecond),
          Event.Search 1 "", Event.Sleep (500 * Millisecond)]) ∧
    searchCount (InitDevice
      (fun _ => .ok [⟨URN_WANPPPConnection_1, "http://192.168.1.1:1780/desc.xml"⟩])
      cannedParse).2 = 3 ∧
    sleepCount (InitDevice
      (fun _ => .ok [⟨URN_WANPPPConnection_1, "http://192.168.1.1:1780/desc.xml"⟩])
      cannedParse).2 = 3 :=
  C8_no_gateway (fun _ => .ok [⟨URN_WANPPPConnection_1, "http://192.168.1.1:1780/desc.xml"⟩])
    cannedParse (fun _ _ => ⟨_, rfl, by decide⟩)

/-! ## C9 -/

/-- C9, as stated, fails: the location `http://192.168.1.1:1780/upnp/desc.xml`, whose path
has two segments, makes `InitDevice` fail with "invalid address" and return no device. -/
theorem C9_two_segment_path_refused :
    InitDevice
      (fun _ => .ok [⟨URN_WANIPConnection_1, "http://192.168.1.1:1780/upnp/desc.xml"⟩])
      cannedParse =
      ((none, some (.errorString "invalid address")), [Event.Search 1 ""]) ∧
    Split "192.168.1.1:1780/upnp/desc.xml" "/" = ["192.168.1.1:1780", "upnp", "desc.xml"] := by
  decide

/-- C9, amended: when the first answer with a WANIPConnection v1 record (at query `k` of the
three, the earlier answers having none with a location) has as its last such record one
with the location `http://host/path`, where host and path contain no slash, and `url.Parse`
accepts `http://host/ctl/IPConn`, `InitDevice` returns without error the device whose control
URL is the parsed `http://host/ctl/IPConn` and whose `Location()` is `host`. -/
theorem C9_control_url (search : Nat → Except GoError (List Service))
    (parse : String → Except GoError URL) (k : Nat) (before after : List Service)
    (srv : Service) (host path : String) (clientUrl : URL)
    (hk : k < 3)
    (hearlier : ∀ j, j < k → ∃ list, search j = .ok list ∧ scanAddress list = "")
    (hsearch : search k = .ok (before ++ srv :: after))
    (htype : srv.ServiceType = URN_WANIPConnection_1)
    (hafter : ∀ s ∈ after, s.ServiceType ≠ URN_WANIPConnection_1)
    (hloc : srv.Location = "http://" ++ host ++ "/" ++ path)
    (hhost : '/' ∉ host.data) (hpath : '/' ∉ path.data)
    (hparse : parse ("http://" ++ host ++ "/ctl/IPConn") = .ok clientUrl) :
    (InitDevice search parse).1 =
        (some { location := host, clientURL := some clientUrl }, none) ∧
      Device.Location { location := host, clientURL := some clientUrl } = host := by
  refine ⟨?_, rfl⟩
  have haddr : scanAddress (before ++ srv :: after) = "http://" ++ host ++ "/" ++ path := by
    rw [scanAddress_last_match before after srv htype hafter, hloc]
  unfold InitDevice
  simp only []
  match k, hk, hearlier, hsearch with
  | 0, _, _, hsearch =>
    rw [InitDeviceLoop_hit search parse _ 2 0 [] _ host path clientUrl hsearch haddr hhost
      hpath hparse]
  | 1, _, hearlier, hsearch =>
    obtain ⟨l0, hs0, ha0⟩ := hearlier 0 (by decide)
    rw [InitDeviceLoop_miss search parse _ 2 0 [] l0 hs0 ha0,
      InitDeviceLoop_hit search parse _ 1 1 _ _ host path clientUrl hsearch haddr hhost
        hpath hparse]
  | 2, _, hearlier, hsearch =>
    obtain ⟨l0, hs0, ha0⟩ := hearlier 0 (by decide)
    obtain ⟨l1, hs1, ha1⟩ := hearlier 1 (by decide)
    rw [InitDeviceLoop_miss search parse _ 2 0 [] l0 hs0 ha0,
      InitDeviceLoop_miss search parse _ 1 1 _ l1 hs1 ha1,
      InitDeviceLoop_hit search parse _ 0 2 _ _ host path clientUrl hsearch haddr hhost
        hpath hparse]

/-- C9, amended, on the location `http://192.168.1.1:1780/desc.xml` found at the first
query. -/
theorem C9_control_url_witness :
    (InitDevice (fun _ => .ok [⟨URN_WANIPConnection_1, "http://192.168.1.1:1780/desc.xml"⟩])
        cannedParse).1 =
      (some { location := "192.168.1.1:1780",
              clientURL := some ⟨"http", "192.168.1.1:1780", "/ctl/IPConn"⟩ }, none) ∧
    Device.Location ⟨"192.168.1.1:1780", some ⟨"http", "192.168.1.1:1780", "/ctl/IPConn"⟩⟩ =
      "192.168.1.1:1780" :=
  C9_control_url (fun _ => .ok [⟨URN_WANIPConnection_1, "http://192.168.1.1:1780/desc.xml"⟩])
    cannedParse 0 [] [] ⟨URN_WANIPConnection_1, "http://192.168.1.1:1780/desc.xml"⟩
    "192.168.1.1:1780" "desc.xml" ⟨"http", "192.168.1.1:1780", "/ctl/IPConn"⟩
    (by decide) (fun j hj => absurd hj (Nat.not_lt_zero j)) rfl rfl (by decide) rfl
    (by decide) (by decide) rfl

/-! ## C10 -/

/-- C10, as stated, fails: of two WANIPConnection v1 records `InitDevice` uses the location
of the second, not of the first. -/
theorem C10_second_record_used :
    InitDevice
      (fun _ => .ok [⟨URN_WANIPConnection_1, "http://192.168.1.1:1780/desc.xml"⟩,
        ⟨URN_WANIPConnection_1, "http://192.168.1.254:5000/rootDesc.xml"⟩])
      cannedParse =
      ((some { location := "192.168.1.254:5000",
               clientURL := some ⟨"http", "192.168.1.254:5000", "/ctl/IPConn"⟩ }, none),
        [Event.Search 1 ""]) ∧
    InitDevice
      (fun _ => .ok [⟨URN_WANIPConnection_1, "http://192.168.1.1:1780/desc.xml"⟩])
      cannedParse =
      ((some { location := "192.168.1.1:1780",
               clientURL := some ⟨"http", "192.168.1.1:1780", "/ctl/IPConn"⟩ }, none),
        [Event.Search 1 ""]) := by
  decide

/-- C10, amended: when an answer contains several WANIPConnection v1 records, `InitDevice`
takes `address` from the location of the last such record in the list; replacing any answer
by the list of its last such record alone changes neither the result nor the calls made, so
earlier matching records do not change the result. -/
theorem C10_last_record_used (search1 search2 : Nat → Except GoError (List Service))
    (parse : String → Except GoError URL)
    (h : ∀ k, search1 k = search2 k ∨
      ∃ before srv after, search1 k = .ok (before ++ srv :: after) ∧ search2 k = .ok [srv] ∧
        srv.ServiceType = URN_WANIPConnection_1 ∧
        ∀ s ∈ after, s.ServiceType ≠ URN_WANIPConnection_1) :
    InitDevice search1 parse = InitDevice search2 parse ∧
      ∀ k before srv after, search1 k = .ok (before ++ srv :: after) →
        srv.ServiceType = URN_WANIPConnection_1 →
        (∀ s ∈ after, s.ServiceType ≠ URN_WANIPConnection_1) →
        (search1 k).map scanAddress = .ok srv.Location := by
  constructor
  · unfold InitDevice
    apply InitDeviceLoop_congr
    intro k
    rcases h k with heq | ⟨before, srv, after, h1, h2, hsrv, hafter⟩
    · rw [heq]
    · rw [h1, h2]
      simp only [Except.map]
      have hone : scanAddress [srv] = srv.Location :=
        scanAddress_last_match [] [] srv hsrv (by simp)
      rw [scanAddress_last_match before after srv hsrv hafter, hone]
  · intro k before srv after h1 hsrv hafter
    rw [h1]
    simp only [Except.map]
    rw [scanAddress_last_match before after srv hsrv hafter]

/-- C10, amended, on two records: the answer with both and the answer with the second alone
give the same result. -/
theorem C10_last_record_used_witness :
    InitDevice
      (fun _ => .ok [⟨URN_WANIPConnection_1, "http://192.168.1.1:1780/desc.xml"⟩,
        ⟨URN_WANIPConnection_1, "http://192.168.1.254:5000/rootDesc.xml"⟩])
      cannedParse =
    InitDevice
      (fun _ => .ok [⟨URN_WANIPConnection_1, "http://192.168.1.254:5000/rootDesc.xml"⟩])
      cannedParse :=
  (C10_last_record_used
    (fun _ => .ok [⟨URN_WANIPConnection_1, "http://192.168.1.1:1780/desc.xml"⟩,
      ⟨URN_WANIPConnection_1, "http://192.168.1.254:5000/rootDesc.xml"⟩])
    (fun _ => .ok [⟨URN_WANIPConnection_1, "http://192.168.1.254:5000/rootDesc.xml"⟩])
    cannedParse
    (fun _ => Or.inr ⟨[⟨URN_WANIPConnection_1, "http://192.168.1.1:1780/desc.xml"⟩],
      ⟨URN_WANIPConnection_1, "http://192.168.1.254:5000/rootDesc.xml"⟩, [], rfl, rfl, rfl,
      by simp⟩)).1

/-! ## Reading a request back -/

/-- A literal at the start of the input is consumed. -/
theorem expectChars_append (lit rest : List Char) : expectChars lit (lit ++ rest) = some rest := by
  have h : lit.isPrefixOf (lit ++ rest) = true := by
    rw [List.isPrefixOf_iff_prefix]
    exact List.prefix_append lit rest
  simp [expectChars, h]

/-- A name character is none of the delimiters and is an XML character that needs no
escaping. -/
theorem isNameChar_facts (c : Char) (h : isNameChar c = true) :
    c ≠ ' ' ∧ c ≠ '>' ∧ c ≠ '/' ∧ c ≠ '<' ∧ c ≠ '&' ∧ c ≠ '\r' ∧ needsNoEscape c = true := by
  have hne : ∀ d : Char, isNameChar d = false → c ≠ d := by
    intro d hd hcd
    rw [hcd, hd] at h
    exact absurd h (by decide)
  have hrange : isInCharacterRange c = true := by
    simp only [isNameChar, isNameStartChar, Bool.or_eq_true, Bool.and_eq_true,
      decide_eq_true_eq] at h
    simp only [isInCharacterRange, Bool.or_eq_true, Bool.and_eq_true, decide_eq_true_eq]
    omega
  refine ⟨hne _ (by decide), hne _ (by decide), hne _ (by decide), hne _ (by decide),
    hne _ (by decide), hne _ (by decide), ?_⟩
  simp only [needsNoEscape, Bool.and_eq_true, hrange, and_true, bne_iff_ne, ne_eq,
    decide_eq_true_eq, decide_not, Bool.not_eq_true', decide_eq_false_iff_not]
  exact ⟨⟨⟨⟨⟨⟨⟨hne _ (by decide), hne _ (by decide)⟩, hne _ (by decide)⟩, hne _ (by decide)⟩,
    hne _ (by decide)⟩, hne _ (by decide)⟩, hne _ (by decide)⟩, hne _ (by decide)⟩

/-- A name start character is a name character. -/
theorem isNameChar_of_start (c : Char) (h : isNameStartChar c = true) : isNameChar c = true := by
  simp [isNameChar, h]

/-- The characters of an XML name are name characters, and there is a first one. -/
theorem isNCName_chars (s : String) (h : isNCName s = true) :
    (∀ c ∈ s.data, isNameChar c = true) ∧ ∃ c rest, s.data = c :: rest ∧ isNameChar c = true := by
  unfold isNCName at h
  cases hs : s.data with
  | nil => rw [hs] at h; exact absurd h (by decide)
  | cons c rest =>
    rw [hs] at h
    simp only [Bool.and_eq_true, List.all_eq_true] at h
    refine ⟨?_, c, rest, rfl, isNameChar_of_start c h.1⟩
    intro d hd
    rcases List.mem_cons.mp hd with hd | hd
    · rw [hd]; exact isNameChar_of_start c h.1
    · exact h.2 d hd

/-- A run of name characters followed by another character is split at that character. -/
theorem spanName_append (name : List Char) (c : Char) (rest : List Char)
    (hname : ∀ d ∈ name, isNameChar d = true) (hc : isNameChar c = false) :
    spanName (name ++ c :: rest) = (name, c :: rest) := by
  induction name with
  | nil => simp [spanName, hc]
  | cons d name ih =>
    have hd := hname d (List.mem_cons_self _ _)
    have ih2 := ih fun e he => hname e (List.mem_cons_of_mem _ he)
    simp [spanName, hd, ih2]

/-- An XML name followed by a character that cannot continue it is read as that name. -/
theorem readName_append (s : String) (c : Char) (rest : List Char)
    (hs : isNCName s = true) (hc : isNameChar c = false) :
    readName (s.data ++ c :: rest) = some (s, c :: rest) := by
  have hspan := spanName_append s.data c rest (isNCName_chars s hs).1 hc
  simp only [readName, hspan]
  have : (⟨s.data⟩ : String) = s := rfl
  simp [this, hs]

/-- An XML name is written by `xml.EscapeText` as it is. -/
theorem EscapeText_of_isNCName (s : String) (hs : isNCName s = true) : EscapeText s = s :=
  EscapeText_of_needsNoEscape s fun c hc => (isNameChar_facts c ((isNCName_chars s hs).1 c hc)).2.2.2.2.2.2

/-- Escaped character data up to the next tag is read back as the characters escaped. -/
theorem readText_escaped (l rest : List Char) (hl : ∀ c ∈ l, isPlainXMLChar c = true) :
    readText '<' 0 (l.flatMap specEntity ++ '<' :: rest) = some (l, '<' :: rest) := by
  induction l with
  | nil => simp [readText]
  | cons c l ih =>
    have ih2 := ih fun d hd => hl d (List.mem_cons_of_mem _ hd)
    have hc := hl c (List.mem_cons_self _ _)
    rw [List.flatMap_cons]
    by_cases h1 : c = '<'
    · subst h1
      simp [specEntity, readText, xmlEntityAt, ih2, consText]
    · by_cases h2 : c = '>'
      · subst h2
        simp [specEntity, readText, xmlEntityAt, ih2, consText]
      · by_cases h3 : c = '&'
        · subst h3
          simp [specEntity, readText, xmlEntityAt, ih2, consText]
        · simp only [isPlainXMLChar, Bool.and_eq_true, bne_iff_ne, ne_eq, decide_eq_true_eq,
            decide_not, Bool.not_eq_true', decide_eq_false_iff_not] at hc
          simp [specEntity, h1, h2, h3, readText, hc.1, hc.2, ih2, consText]

/-- An attribute value without `<`, `&`, quote and carriage return is read as it is. -/
theorem readText_attr (l rest : List Char)
    (hl : ∀ c ∈ l, isPlainXMLChar c = true ∧ c ≠ '<' ∧ c ≠ '&' ∧ c ≠ '"') :
    readText '"' 0 (l ++ '"' :: rest) = some (l, '"' :: rest) := by
  induction l with
  | nil => simp [readText]
  | cons c l ih =>
    have ih2 := ih fun d hd => hl d (List.mem_cons_of_mem _ hd)
    obtain ⟨hc, h1, h2, h3⟩ := hl c (List.mem_cons_self _ _)
    simp only [isPlainXMLChar, Bool.and_eq_true, bne_iff_ne, ne_eq, decide_eq_true_eq,
      decide_not, Bool.not_eq_true', decide_eq_false_iff_not] at hc
    simp [readText, h1, h2, h3, hc.1, hc.2, ih2, consText]

/-- The characters of the element of one parameter. -/
theorem paramElement_data (p : String × String) :
    (paramElement p).data =
      '<' :: (p.1.data ++ '>' :: (p.2.data.flatMap specEntity ++
        ("</" ++ p.1 ++ ">").data)) := by
  have hesc : (escapeXMLText p.2).data = p.2.data.flatMap specEntity :=
    ReplaceAllStringFunc_eq_flatMap p.2.data
  have h1 : ("<" : String).data = ['<'] := rfl
  have h2 : (">" : String).data = ['>'] := rfl
  simp only [paramElement, String.data_append, hesc, h1, h2, List.append_assoc,
    List.singleton_append, List.cons_append, List.nil_append]

/-- The elements of the parameters, up to the end tag that follows them, are read back as
the parameters, in order. -/
theorem readChildren_params (ps : List (String × String)) :
    ∀ (fuel : Nat) (rest : List Char), ps.length < fuel →
      (∀ p ∈ ps, isNCName p.1 = true ∧ ∀ c ∈ p.2.data, isPlainXMLChar c = true) →
      readChildren fuel ((String.join (ps.map paramElement)).data ++ '<' :: '/' :: rest) =
        some (ps, '<' :: '/' :: rest) := by
  induction ps with
  | nil =>
    intro fuel rest hfuel _
    obtain ⟨fuel, rfl⟩ : ∃ k, fuel = k + 1 := ⟨fuel - 1, by simp at hfuel; omega⟩
    simp [readChildren, String.join, List.isPrefixOf]
  | cons p ps ih =>
    intro fuel rest hfuel hps
    obtain ⟨fuel, rfl⟩ : ∃ k, fuel = k + 1 := ⟨fuel - 1, by simp at hfuel; omega⟩
    obtain ⟨hname, hvalue⟩ := hps p (List.mem_cons_self _ _)
    have ih2 := ih fuel rest (by simp at hfuel; omega)
      fun q hq => hps q (List.mem_cons_of_mem _ hq)
    obtain ⟨c, tail, hdata, hc⟩ := (isNCName_chars p.1 hname).2
    have hslash : c ≠ '/' := (isNameChar_facts c hc).2.2.1
    have hgt : isNameChar '>' = false := by decide
    have hend : ("</" ++ p.1 ++ ">").data = '<' :: '/' :: (p.1.data ++ ['>']) := by
      simp [String.data_append]
    rw [List.map_cons, join_cons, String.data_append, paramElement_data, List.append_assoc]
    have hnot : ['<', '/'].isPrefixOf
        ('<' :: (p.1.data ++ '>' :: (p.2.data.flatMap specEntity ++ ("</" ++ p.1 ++ ">").data)) ++
          ((String.join (ps.map paramElement)).data ++ '<' :: '/' :: rest)) = false := by
      rw [hdata]
      simp [List.isPrefixOf, hslash.symm]
    have hopen : expectChars ['<']
        ('<' :: (p.1.data ++ '>' :: (p.2.data.flatMap specEntity ++ ("</" ++ p.1 ++ ">").data)) ++
          ((String.join (ps.map paramElement)).data ++ '<' :: '/' :: rest)) =
        some (p.1.data ++ '>' :: (p.2.data.flatMap specEntity ++ (("</" ++ p.1 ++ ">").data ++
          ((String.join (ps.map paramElement)).data ++ '<' :: '/' :: rest)))) := by
      have := expectChars_append ['<'] (p.1.data ++ '>' :: (p.2.data.flatMap specEntity ++
        (("</" ++ p.1 ++ ">").data ++
          ((String.join (ps.map paramElement)).data ++ '<' :: '/' :: rest))))
      simpa using this
    have hread := readName_append p.1 '>' (p.2.data.flatMap specEntity ++
      (("</" ++ p.1 ++ ">").data ++
        ((String.join (ps.map paramElement)).data ++ '<' :: '/' :: rest))) hname hgt
    have hclose : expectChars ['>'] ('>' :: (p.2.data.flatMap specEntity ++
        (("</" ++ p.1 ++ ">").data ++
          ((String.join (ps.map paramElement)).data ++ '<' :: '/' :: rest)))) =
        some (p.2.data.flatMap specEntity ++ (("</" ++ p.1 ++ ">").data ++
          ((String.join (ps.map paramElement)).data ++ '<' :: '/' :: rest))) :=
      expectChars_append ['>'] _
    have htext : readText '<' 0 (p.2.data.flatMap specEntity ++ (("</" ++ p.1 ++ ">").data ++
        ((String.join (ps.map paramElement)).data ++ '<' :: '/' :: rest))) =
        some (p.2.data, ("</" ++ p.1 ++ ">").data ++
          ((String.join (ps.map paramElement)).data ++ '<' :: '/' :: rest)) := by
      have := readText_escaped p.2.data ('/' :: (p.1.data ++ ['>'] ++
        ((String.join (ps.map paramElement)).data ++ '<' :: '/' :: rest))) hvalue
      rw [hend]
      simpa using this
    have hendtag := expectChars_append ("</" ++ p.1 ++ ">").data
      ((String.join (ps.map paramElement)).data ++ '<' :: '/' :: rest)
    rw [readChildren, if_neg (by rw [hnot]; decide), hopen]
    simp only [Option.bind_some, Option.some_bind, hread, hclose, htext, hendtag, ih2]

/-- The elements of the parameters have at least one character each. -/
theorem length_le_join_paramElement (ps : List (String × String)) :
    ps.length ≤ (String.join (ps.map paramElement)).data.length := by
  induction ps with
  | nil => simp
  | cons p ps ih =>
    rw [List.map_cons, join_cons, String.data_append, paramElement_data]
    simp only [List.length_cons, List.length_append]
    omega

/-- The characters of the service name space are plain and none of `<`, `&`, quote. -/
theorem URN_chars : ∀ c ∈ URN_WANPPPConnection_1.data,
    isPlainXMLChar c = true ∧ c ≠ '<' ∧ c ≠ '&' ∧ c ≠ '"' := by
  decide

/-- The request characters for an XML action name and parameters with XML names and plain
values are read back as the name space, the action name and the parameters. -/
theorem readRequest_chars (actionName : String) (ps : List (String × String))
    (hname : isNCName actionName = true)
    (hps : ∀ p ∈ ps, isNCName p.1 = true ∧ ∀ c ∈ p.2.data, isPlainXMLChar c = true) :
    readRequest ⟨ soapPrefix.data ++ ('<' :: 'u' :: ':' :: (actionName.data ++
      ' ' :: 'x' :: 'm' :: 'l' :: 'n' :: 's' :: ':' :: 'u' :: '=' :: '"' ::
        (URN_WANPPPConnection_1.data ++ '"' :: '>' ::
          ((String.join (ps.map paramElement)).data ++
            '<' :: '/' :: 'u' :: ':' :: (actionName.data ++ '>' :: soapSuffix.data)))))⟩ =
      some { Space := URN_WANPPPConnection_1, Local := actionName, Params := ps } := by
  have hsp : isNameChar ' ' = false := by decide
  have hend : ("</u:" ++ actionName ++ ">").data =
      '<' :: '/' :: 'u' :: ':' :: (actionName.data ++ ['>']) := by
    simp [String.data_append]
  have hfuel : ps.length <
      ((String.join (ps.map paramElement)).data ++
        '<' :: '/' :: 'u' :: ':' :: (actionName.data ++ '>' :: soapSuffix.data)).length + 1 := by
    have := length_le_join_paramElement ps
    simp only [List.length_append]
    omega
  have s1 := expectChars_append soapPrefix.data ('<' :: 'u' :: ':' :: (actionName.data ++
      ' ' :: 'x' :: 'm' :: 'l' :: 'n' :: 's' :: ':' :: 'u' :: '=' :: '"' ::
        (URN_WANPPPConnection_1.data ++ '"' :: '>' ::
          ((String.join (ps.map paramElement)).data ++
            '<' :: '/' :: 'u' :: ':' :: (actionName.data ++ '>' :: soapSuffix.data)))))
  have s2 := expectChars_append ['<', 'u', ':'] (actionName.data ++
      ' ' :: 'x' :: 'm' :: 'l' :: 'n' :: 's' :: ':' :: 'u' :: '=' :: '"' ::
        (URN_WANPPPConnection_1.data ++ '"' :: '>' ::
          ((String.join (ps.map paramElement)).data ++
            '<' :: '/' :: 'u' :: ':' :: (actionName.data ++ '>' :: soapSuffix.data))))
  have s3 := readName_append actionName ' '
    ('x' :: 'm' :: 'l' :: 'n' :: 's' :: ':' :: 'u' :: '=' :: '"' ::
        (URN_WANPPPConnection_1.data ++ '"' :: '>' ::
          ((String.join (ps.map paramElement)).data ++
            '<' :: '/' :: 'u' :: ':' :: (actionName.data ++ '>' :: soapSuffix.data)))) hname hsp
  have s4 := expectChars_append [' ', 'x', 'm', 'l', 'n', 's', ':', 'u', '=', '"']
    (URN_WANPPPConnection_1.data ++ '"' :: '>' ::
          ((String.join (ps.map paramElement)).data ++
            '<' :: '/' :: 'u' :: ':' :: (actionName.data ++ '>' :: soapSuffix.data)))
  have s5 := readText_attr URN_WANPPPConnection_1.data ('>' ::
      ((String.join (ps.map paramElement)).data ++
        '<' :: '/' :: 'u' :: ':' :: (actionName.data ++ '>' :: soapSuffix.data))) URN_chars
  have s6 := expectChars_append ['"', '>']
      ((String.join (ps.map paramElement)).data ++
        '<' :: '/' :: 'u' :: ':' :: (actionName.data ++ '>' :: soapSuffix.data))
  have s7 := readChildren_params ps _
    ('u' :: ':' :: (actionName.data ++ '>' :: soapSuffix.data)) hfuel hps
  have s8 := expectChars_append ("</u:" ++ actionName ++ ">").data soapSuffix.data
  rw [hend] at s8
  have s9 := expectChars_append soapSuffix.data []
  simp only [List.cons_append, List.append_assoc, List.singleton_append, List.nil_append,
    List.append_nil] at s2 s4 s6 s8 s9
  have hmk : (⟨URN_WANPPPConnection_1.data⟩ : String) = URN_WANPPPConnection_1 := rfl
  simp only [readRequest, s1, Option.some_bind, s2, s3, s4, s5, s6, s7, hend, s8, s9, if_true,
    hmk]

/-! ## C3 -/

/-- C3, as stated, fails: a parameter with the empty name makes `encodeRequestAction` return
an error and no bytes, and an action name with a space gives bytes that are not well-formed
(the start tag `<u:Add PortMapping xmlns:u=...>` has an attribute without value), which the
reader refuses. -/
theorem C3_names_not_checked :
    encodeRequestAction id "AddPortMapping" (some { Params := [("", "TCP")] }) =
      .error (.errorString
        "error encoding start element for SOAP arg \"\": xml: start tag with no name") ∧
    encodeRequestAction id "Add PortMapping" (some { Params := [("NewProtocol", "TCP")] }) =
      .ok ( soapPrefix ++ "<u:Add PortMapping xmlns:u=\"urn:schemas-upnp-org:service:WANPPPConnection:1\"><NewProtocol>TCP</NewProtocol></u:Add PortMapping>" ++ soapSuffix) ∧
    readRequest ( soapPrefix ++ "<u:Add PortMapping xmlns:u=\"urn:schemas-upnp-org:service:WANPPPConnection:1\"><NewProtocol>TCP</NewProtocol></u:Add PortMapping>" ++ soapSuffix) = none := by
  refine ⟨rfl, rfl, ?_⟩
  decide

/-- C3, amended: for an action name that is an XML name without colon and parameters whose
names are XML names without colon and whose values consist of characters XML allows other
than the carriage return, `encodeRequestAction` succeeds and reading its bytes back yields
the action element with that local name in the service name space and, as its children, the
(name, value) pairs of the parameters in the order in which `Params` was iterated. -/
theorem C3_request_round_trip (rangeOrder : List (String × String) → List (String × String))
    (actionName : String) (params : List (String × String))
    (hperm : (rangeOrder params).Perm params)
    (hname : isNCName actionName = true)
    (hparams : ∀ p ∈ params, isNCName p.1 = true ∧ ∀ c ∈ p.2.data, isPlainXMLChar c = true) :
    ∃ bytes, encodeRequestAction rangeOrder actionName (some { Params := params }) = .ok bytes ∧
      readRequest bytes = some { Space := URN_WANPPPConnection_1, Local := actionName,
                                 Params := rangeOrder params } := by
  have hps : ∀ p ∈ rangeOrder params,
      isNCName p.1 = true ∧ ∀ c ∈ p.2.data, isPlainXMLChar c = true :=
    fun p hp => hparams p (hperm.subset hp)
  have hne : ∀ p ∈ rangeOrder params, p.1 ≠ "" := by
    intro p hp h0
    have := (hps p hp).1
    rw [h0] at this
    exact absurd this (by decide)
  refine ⟨_, encodeRequestAction_some rangeOrder actionName params hne, ?_⟩
  rw [EscapeText_of_isNCName actionName hname, EscapeText_URN]
  have hread := readRequest_chars actionName (rangeOrder params) hname hps
  have hbytes : soapPrefix ++ "<u:" ++ actionName ++ " xmlns:u=\"" ++ URN_WANPPPConnection_1 ++
      "\">" ++ String.join ((rangeOrder params).map paramElement) ++ "</u:" ++ actionName ++
      ">" ++ soapSuffix =
      ⟨ soapPrefix.data ++ ('<' :: 'u' :: ':' :: (actionName.data ++
        ' ' :: 'x' :: 'm' :: 'l' :: 'n' :: 's' :: ':' :: 'u' :: '=' :: '"' ::
          (URN_WANPPPConnection_1.data ++ '"' :: '>' ::
            ((String.join ((rangeOrder params).map paramElement)).data ++
              '<' :: '/' :: 'u' :: ':' :: (actionName.data ++ '>' :: soapSuffix.data)))))⟩ := by
    apply String.ext
    simp [String.data_append]
  rw [hbytes]
  exact hread

/-- C3, amended, on the parameters of `DeletePortMapping` with a value that needs
escaping. -/
theorem C3_request_round_trip_witness :
    ∃ bytes, encodeRequestAction List.reverse "DeletePortMapping"
        (some { Params := [("NewRemoteHost", "a<b&c"), ("NewExternalPort", "8080"),
          ("NewProtocol", "TCP")] }) = .ok bytes ∧
      readRequest bytes = some ⟨URN_WANPPPConnection_1, "DeletePortMapping",
        List.reverse [("NewRemoteHost", "a<b&c"), ("NewExternalPort", "8080"),
          ("NewProtocol", "TCP")]⟩ :=
  C3_request_round_trip List.reverse "DeletePortMapping"
    [("NewRemoteHost", "a<b&c"), ("NewExternalPort", "8080"), ("NewProtocol", "TCP")]
    (List.reverse_perm _) (by decide) (by decide)

/-! ## What `strings.Split` accepts -/

/-- A split has at least one piece. -/
theorem splitChars_ne_nil (sep : List Char) (l : List Char) :
    ∀ skip, splitChars sep skip l ≠ [] := by
  induction l with
  | nil => intro skip; simp [splitChars]
  | cons c l ih =>
    intro skip
    cases skip with
    | succ skip => simpa [splitChars] using ih skip
    | zero =>
      rw [splitChars]
      split
      · simp
      · split <;> simp

/-- Putting a character in front of the first piece puts it in front of the whole. -/
theorem joinPieces_cons_cons (sep : List Char) (c : Char) (piece : List Char)
    (pieces : List (List Char)) :
    joinPieces sep ((c :: piece) :: pieces) = c :: joinPieces sep (piece :: pieces) := by
  cases pieces with
  | nil => rfl
  | cons next rest => simp [joinPieces]

/-- The pieces of a split, put together with the separator, are the text split. -/
theorem joinPieces_splitChars (sep : List Char) (hsep : sep ≠ []) :
    ∀ (n : Nat) (l : List Char), l.length ≤ n → joinPieces sep (splitChars sep 0 l) = l := by
  intro n
  induction n with
  | zero =>
    intro l hl
    have : l = [] := List.length_eq_zero.mp (Nat.le_zero.mp hl)
    subst this
    rfl
  | succ n ih =>
    intro l hl
    cases l with
    | nil => rfl
    | cons c cs =>
      by_cases hpre : sep.isPrefixOf (c :: cs) = true
      · obtain ⟨rest, hrest⟩ := List.isPrefixOf_iff_prefix.mp hpre
        cases sep with
        | nil => exact absurd rfl hsep
        | cons d tail =>
          have hd : d = c := by
            have := congrArg List.head? hrest
            simpa using this
          have hcs : cs = tail ++ rest := by
            have := congrArg List.tail hrest
            simpa using this.symm
          subst hd
          have hlen : rest.length ≤ n := by
            have : cs.length = tail.length + rest.length := by rw [hcs, List.length_append]
            simp only [List.length_cons] at hl
            omega
          have hskip := splitChars_skip (d :: tail) tail rest
          rw [splitChars, if_pos hpre]
          simp only [List.length_cons, Nat.add_sub_cancel]
          rw [hcs, hskip]
          obtain ⟨x, xs, hx⟩ := List.exists_cons_of_ne_nil (splitChars_ne_nil (d :: tail) rest 0)
          have := ih rest hlen
          rw [hx] at this ⊢
          simp [joinPieces, this]
      · have hlen : cs.length ≤ n := by
          simp only [List.length_cons] at hl
          omega
        obtain ⟨x, xs, hx⟩ := List.exists_cons_of_ne_nil (splitChars_ne_nil sep cs 0)
        have := ih cs hlen
        rw [splitChars, if_neg hpre, hx]
        rw [hx] at this
        simp only []
        rw [joinPieces_cons_cons, this]

/-- A text that splits in two pieces is the first piece, the separator and the second. -/
theorem splitChars_two (sep : List Char) (hsep : sep ≠ []) (l a b : List Char)
    (h : splitChars sep 0 l = [a, b]) : l = a ++ sep ++ b := by
  have := joinPieces_splitChars sep hsep l.length l (Nat.le_refl _)
  rw [h] at this
  simpa [joinPieces] using this.symm

/-- The pieces between slashes have no slash. -/
theorem splitChars_slash_pieces (l : List Char) :
    ∀ piece ∈ splitChars ['/'] 0 l, '/' ∉ piece := by
  induction l with
  | nil => simp [splitChars]
  | cons c l ih =>
    intro piece hpiece
    by_cases hc : c = '/'
    · subst hc
      simp [splitChars, List.isPrefixOf] at hpiece
      rcases hpiece with h | h
      · subst h; simp
      · exact ih piece h
    · have hc2 : ¬ '/' = c := fun h => hc h.symm
      obtain ⟨x, xs, hx⟩ := List.exists_cons_of_ne_nil (splitChars_ne_nil ['/'] l 0)
      have hnot : ¬ (['/'].isPrefixOf (c :: l) = true) := by simp [List.isPrefixOf, hc2]
      have hsplit : splitChars ['/'] 0 (c :: l) = (c :: x) :: xs := by
        rw [splitChars, if_neg hnot, hx]
      rw [hsplit, List.mem_cons] at hpiece
      rw [hx] at ih
      rcases hpiece with h | h
      · subst h
        have := ih x (List.mem_cons_self _ _)
        simp [hc2, this]
      · exact ih piece (List.mem_cons_of_mem _ h)

/-- An address that passes the two length checks of `InitDevice` is some text, `http://`, a
host without slash, a slash and one path segment. -/
theorem shape_of_accepted (address : String)
    (h1 : (Split address "http://").length = 2)
    (h2 : (Split ((Split address "http://").getD 1 "") "/").length = 2) :
    ∃ pre host path : String, '/' ∉ host.data ∧ '/' ∉ path.data ∧
      address = pre ++ "http://" ++ host ++ "/" ++ path := by
  have hs1 : ("http://" : String) ≠ "" := by decide
  have hs2 : ("/" : String) ≠ "" := by decide
  have hsep : "http://".data ≠ [] := by decide
  simp only [Split, hs1, if_false, List.length_map] at h1 h2
  obtain ⟨a, b, hab⟩ := List.length_eq_two.mp h1
  rw [hab] at h2
  simp only [List.map_cons, List.map_nil, List.getD_cons_succ, List.getD_cons_zero, hs2,
    if_false, List.length_map] at h2
  obtain ⟨h, p, hhp⟩ := List.length_eq_two.mp h2
  have hslash : ("/" : String).data = ['/'] := rfl
  have haddr := splitChars_two "http://".data hsep address.data a b hab
  have hb := splitChars_two ['/'] (by decide) b h p hhp
  have hh : '/' ∉ h := splitChars_slash_pieces b h (by rw [hhp]; simp)
  have hp : '/' ∉ p := splitChars_slash_pieces b p (by rw [hhp]; simp)
  refine ⟨⟨a⟩, ⟨h⟩, ⟨p⟩, hh, hp, ?_⟩
  apply String.ext
  rw [haddr, hb]
  simp only [String.data_append, hslash, List.append_assoc]

/-! ## More on the rounds of `InitDevice` -/

/-- After `k` rounds without address the loop stands at round `i + k` with the calls of
these rounds made. -/
theorem InitDeviceLoop_misses (search : Nat → Except GoError (List Service))
    (parse : String → Except GoError URL) (k : Nat) :
    ∀ (fuel i : Nat) (trace : List Event),
      (∀ j, j < k → ∃ list, search (i + j) = .ok list ∧ scanAddress list = "") →
      InitDeviceLoop search parse (Millisecond * 500) (fuel + k) i trace =
        InitDeviceLoop search parse (Millisecond * 500) fuel (i + k) (trace ++ roundsTrace k) := by
  induction k with
  | zero => intro fuel i trace _; simp [roundsTrace]
  | succ k ih =>
    intro fuel i trace h
    obtain ⟨list, hs, ha⟩ := h k (Nat.lt_succ_self k)
    have hk := ih (fuel + 1) i trace fun j hj => h j (Nat.lt_succ_of_lt hj)
    have hfuel : fuel + (k + 1) = fuel + 1 + k := by omega
    rw [hfuel, hk, InitDeviceLoop_miss search parse _ fuel (i + k) _ list hs ha]
    have hmul : Millisecond * 500 = 500 * Millisecond := Int.mul_comm _ _
    simp only [roundsTrace, List.append_assoc, hmul, List.cons_append, List.nil_append,
      Nat.add_assoc]

/-- A round whose query fails: the error is returned as it is. -/
theorem InitDeviceLoop_error (search : Nat → Except GoError (List Service))
    (parse : String → Except GoError URL) (timeSleep : Int) (fuel i : Nat)
    (trace : List Event) (err : GoError) (hsearch : search i = .error err) :
    InitDeviceLoop search parse timeSleep (fuel + 1) i trace =
      ((none, some err), trace ++ [Event.Search 1 ""]) := by
  simp only [InitDeviceLoop, hsearch]

/-- A round whose answer has an address that is not some text, `http://`, a host, a slash
and one path segment: "invalid address" is returned without a sleep. -/
theorem InitDeviceLoop_invalid (search : Nat → Except GoError (List Service))
    (parse : String → Except GoError URL) (timeSleep : Int) (fuel i : Nat)
    (trace : List Event) (list : List Service)
    (hsearch : search i = .ok list) (hne : scanAddress list ≠ "")
    (hshape : ¬ ∃ pre host path : String, '/' ∉ host.data ∧ '/' ∉ path.data ∧
      scanAddress list = pre ++ "http://" ++ host ++ "/" ++ path) :
    InitDeviceLoop search parse timeSleep (fuel + 1) i trace =
      ((none, some (.errorString "invalid address")), trace ++ [Event.Search 1 ""]) := by
  by_cases h1 : (Split (scanAddress list) "http://").length = 2
  · by_cases h2 : (Split ((Split (scanAddress list) "http://").getD 1 "") "/").length = 2
    · exact absurd (shape_of_accepted _ h1 h2) hshape
    · simp only [InitDeviceLoop, hsearch, hne, if_false, h1, ne_eq, not_true_eq_false, h2,
        not_false_eq_true, if_true]
  · simp only [InitDeviceLoop, hsearch, hne, if_false, ne_eq, h1, not_false_eq_true, if_true]

/-- The calls of `k` rounds without address: `k` queries and `k` sleeps. -/
theorem roundsTrace_counts (k : Nat) :
    searchCount (roundsTrace k) = k ∧ sleepCount (roundsTrace k) = k ∧
      searchCount (roundsTrace k ++ [Event.Search 1 ""]) = k + 1 ∧
      sleepCount (roundsTrace k ++ [Event.Search 1 ""]) = k := by
  induction k with
  | zero => decide
  | succ k ih =>
    obtain ⟨h1, h2, _, _⟩ := ih
    simp only [searchCount, sleepCount, roundsTrace, List.filter_append, List.length_append]
      at h1 h2 ⊢
    simp [List.filter, h1, h2]

/-- After `k` of the three rounds found no address, `InitDevice` stands at round `k` with
the calls of these rounds made. -/
theorem InitDevice_after_misses (search : Nat → Except GoError (List Service))
    (parse : String → Except GoError URL) (k : Nat) (hk : k < 3)
    (hearlier : ∀ j, j < k → ∃ list, search j = .ok list ∧ scanAddress list = "") :
    InitDevice search parse =
      InitDeviceLoop search parse (Millisecond * 500) (2 - k + 1) k (roundsTrace k) := by
  have h := InitDeviceLoop_misses search parse k (2 - k + 1) 0 []
    (fun j hj => by simpa using hearlier j hj)
  have hfuel : 2 - k + 1 + k = 3 := by omega
  rw [hfuel] at h
  simpa [InitDevice] using h

/-! ## C11 -/

/-- C11, as stated, fails: a WANIPConnection v1 record with an empty location is treated as
no record (three queries, three sleeps, "no available internet gateway devices"), and the
location `xhttp://192.168.1.1:1780/desc.xml`, which is not of the shape
`http://host/path`, is accepted. -/
theorem C11_empty_location_is_retried :
    InitDevice (fun _ => .ok [⟨URN_WANIPConnection_1, ""⟩]) cannedParse =
      ((none, some (.errorString "no available internet gateway devices")),
        [Event.Search 1 "", Event.Sleep 500000000, Event.Search 1 "", Event.Sleep 500000000,
          Event.Search 1 "", Event.Sleep 500000000]) ∧
    InitDevice (fun _ => .ok [⟨URN_WANIPConnection_1, "xhttp://192.168.1.1:1780/desc.xml"⟩])
        cannedParse =
      ((some ⟨"192.168.1.1:1780", some ⟨"http", "192.168.1.1:1780", "/ctl/IPConn"⟩⟩, none),
        [Event.Search 1 ""]) := by
  decide

/-- C11, amended: when the first answer with an address (at round `k` of the three, the
earlier answers having none) has as its last WANIPConnection v1 record one whose location
is not empty and is not some text followed by `http://`, a host without slash, a slash and
one path segment, `InitDevice` returns no device and the error "invalid address" right
after that query: no further query, no sleep after it, and not the error "no available
internet gateway devices". -/
theorem C11_invalid_address (search : Nat → Except GoError (List Service))
    (parse : String → Except GoError URL) (k : Nat) (before after : List Service)
    (srv : Service)
    (hk : k < 3)
    (hearlier : ∀ j, j < k → ∃ list, search j = .ok list ∧ scanAddress list = "")
    (hsearch : search k = .ok (before ++ srv :: after))
    (htype : srv.ServiceType = URN_WANIPConnection_1)
    (hafter : ∀ s ∈ after, s.ServiceType ≠ URN_WANIPConnection_1)
    (hne : srv.Location ≠ "")
    (hshape : ¬ ∃ pre host path : String, '/' ∉ host.data ∧ '/' ∉ path.data ∧
      srv.Location = pre ++ "http://" ++ host ++ "/" ++ path) :
    InitDevice search parse =
      ((none, some (.errorString "invalid address")), roundsTrace k ++ [Event.Search 1 ""]) ∧
    searchCount (InitDevice search parse).2 = k + 1 ∧
    sleepCount (InitDevice search parse).2 = k := by
  have haddr : scanAddress (before ++ srv :: after) = srv.Location :=
    scanAddress_last_match before after srv htype hafter
  have hrun : InitDevice search parse =
      ((none, some (.errorString "invalid address")), roundsTrace k ++ [Event.Search 1 ""]) := by
    rw [InitDevice_after_misses search parse k hk hearlier]
    exact InitDeviceLoop_invalid search parse _ _ k _ _ hsearch (by rw [haddr]; exact hne)
      (by rw [haddr]; exact hshape)
  rw [hrun]
  exact ⟨rfl, (roundsTrace_counts k).2.2.1, (roundsTrace_counts k).2.2.2⟩

/-- C11, amended, on the location `192.168.1.1:1780/desc.xml` (no scheme) found at the
second query. -/
theorem C11_invalid_address_witness :
    InitDevice (fun i => if i = 0 then .ok []
        else .ok [⟨URN_WANIPConnection_1, "192.168.1.1:1780/desc.xml"⟩]) cannedParse =
      ((none, some (.errorString "invalid address")), roundsTrace 1 ++ [Event.Search 1 ""]) ∧
    searchCount (InitDevice (fun i => if i = 0 then .ok []
        else .ok [⟨URN_WANIPConnection_1, "192.168.1.1:1780/desc.xml"⟩]) cannedParse).2 = 1 + 1 ∧
    sleepCount (InitDevice (fun i => if i = 0 then .ok []
        else .ok [⟨URN_WANIPConnection_1, "192.168.1.1:1780/desc.xml"⟩]) cannedParse).2 = 1 :=
  C11_invalid_address (fun i => if i = 0 then .ok []
      else .ok [⟨URN_WANIPConnection_1, "192.168.1.1:1780/desc.xml"⟩]) cannedParse 1 [] []
    ⟨URN_WANIPConnection_1, "192.168.1.1:1780/desc.xml"⟩ (by decide)
    (fun j hj => ⟨[], by
      have : j = 0 := by omega
      subst this
      exact ⟨rfl, rfl⟩⟩)
    rfl rfl (by simp) (by decide)
    (by
      rintro ⟨pre, host, path, _, _, h⟩
      have hcount : List.count '/' "192.168.1.1:1780/desc.xml".data =
          List.count '/' (pre ++ "http://" ++ host ++ "/" ++ path).data :=
        congrArg (fun s : String => s.data.count '/') h
      have h1 : List.count '/' "192.168.1.1:1780/desc.xml".data = 1 := by decide
      have h2 : List.count '/' ['h', 't', 't', 'p', ':', '/', '/'] = 2 := by decide
      rw [h1] at hcount
      simp only [String.data_append, List.count_append] at hcount
      omega)

/-! ## C16 -/

/-- C16: when the discovery returns an error at attempt `k` (1, 2 or 3) after `k - 1`
attempts whose answers had no WANIPConnection v1 record, `InitDevice` returns no device and
that same error, having made exactly `k` queries and `k - 1` sleeps: the error is not
retried and not turned into "no available internet gateway devices". -/
theorem C16_discovery_error_returned (search : Nat → Except GoError (List Service))
    (parse : String → Except GoError URL) (k : Nat) (err : GoError)
    (hk1 : 1 ≤ k) (hk3 : k ≤ 3)
    (hearlier : ∀ j, j + 1 < k → ∃ list, search j = .ok list ∧
      ∀ srv ∈ list, srv.ServiceType ≠ URN_WANIPConnection_1)
    (herr : search (k - 1) = .error err) :
    InitDevice search parse =
      ((none, some err), roundsTrace (k - 1) ++ [Event.Search 1 ""]) ∧
    searchCount (InitDevice search parse).2 = k ∧
    sleepCount (InitDevice search parse).2 = k - 1 := by
  have hmiss : ∀ j, j < k - 1 → ∃ list, search j = .ok list ∧ scanAddress list = "" := by
    intro j hj
    obtain ⟨list, hs, hm⟩ := hearlier j (by omega)
    exact ⟨list, hs, scanAddress_of_no_match list hm⟩
  have hrun : InitDevice search parse =
      ((none, some err), roundsTrace (k - 1) ++ [Event.Search 1 ""]) := by
    rw [InitDevice_after_misses search parse (k - 1) (by omega) hmiss]
    exact InitDeviceLoop_error search parse _ _ (k - 1) _ err herr
  rw [hrun]
  have hcount := roundsTrace_counts (k - 1)
  refine ⟨rfl, ?_, hcount.2.2.2⟩
  have hk : k - 1 + 1 = k := by omega
  simpa [hk] using hcount.2.2.1

/-- C16 on a discovery that finds nothing at the first attempt and fails at the second. -/
theorem C16_discovery_error_returned_witness :
    InitDevice (fun i => if i = 0 then .ok [⟨URN_WANPPPConnection_1, "http://10.0.0.1/x"⟩]
        else .error (.errorString "network is unreachable")) cannedParse =
      ((none, some (.errorString "network is unreachable")),
        roundsTrace (2 - 1) ++ [Event.Search 1 ""]) ∧
    searchCount (InitDevice (fun i =>
        if i = 0 then .ok [⟨URN_WANPPPConnection_1, "http://10.0.0.1/x"⟩]
        else .error (.errorString "network is unreachable")) cannedParse).2 = 2 ∧
    sleepCount (InitDevice (fun i =>
        if i = 0 then .ok [⟨URN_WANPPPConnection_1, "http://10.0.0.1/x"⟩]
        else .error (.errorString "network is unreachable")) cannedParse).2 = 2 - 1 :=
  C16_discovery_error_returned (fun i =>
      if i = 0 then .ok [⟨URN_WANPPPConnection_1, "http://10.0.0.1/x"⟩]
      else .error (.errorString "network is unreachable")) cannedParse 2
    (.errorString "network is unreachable") (by decide) (by decide)
    (fun j hj => ⟨[⟨URN_WANPPPConnection_1, "http://10.0.0.1/x"⟩], by
      have : j = 0 := by omega
      subst this
      exact ⟨rfl, by decide⟩⟩)
    rfl

/-! ## The errors of `PerformAction` -/

/-- A message that starts with another character than `u` is not "url is empty". -/
theorem ne_url_is_empty_of_head (msg : String) (c : Char) (hc : c ≠ 'u')
    (h : msg.data.head? = some c) : GoError.errorString msg ≠ .errorString "url is empty" := by
  intro heq
  injection heq with heq
  rw [heq] at h
  have h2 : ("url is empty" : String).data.head? = some 'u' := rfl
  rw [h2] at h
  injection h with h
  exact hc h.symm

/-- The errors of the argument loop are messages that start with `e`. -/
theorem encodeRequestArgsLoop_error (ps : List (String × String)) :
    ∀ (enc : Encoder) (w : String) (err : GoError),
      encodeRequestArgsLoop ps enc w = .error err →
      ∃ msg, err = .errorString msg ∧ msg.data.head? = some 'e' := by
  induction ps with
  | nil => intro enc w err h; simp [encodeRequestArgsLoop] at h
  | cons p ps ih =>
    intro enc w err h
    obtain ⟨field, value⟩ := p
    rw [encodeRequestArgsLoop] at h
    cases h1 : enc.EncodeToken (.StartElement field) with
    | error e1 =>
      rw [h1] at h
      simp only [Except.error.injEq] at h
      exact ⟨_, h.symm, by simp [String.data_append]⟩
    | ok enc1 =>
      rw [h1] at h
      simp only at h
      cases h2 : (enc1.Flush w).1.EncodeToken (.EndElement field) with
      | error e2 =>
        rw [h2] at h
        simp only [Except.error.injEq] at h
        exact ⟨_, h.symm, by simp [String.data_append]⟩
      | ok enc3 =>
        rw [h2] at h
        exact ih _ _ err h

/-- The errors of `encodeRequestAction` are messages that start with `e`. -/
theorem encodeRequestAction_error (rangeOrder : List (String × String) → List (String × String))
    (actionName : String) (request : Option SoapAction) (err : GoError)
    (h : encodeRequestAction rangeOrder actionName request = .error err) :
    ∃ msg, err = .errorString msg ∧ msg.data.head? = some 'e' := by
  cases request with
  | none => simp [encodeRequestAction] at h
  | some action =>
    simp only [encodeRequestAction, encodeRequestArgs] at h
    split at h
    · rename_i err1 hloop
      split at hloop
      · rename_i err2 hloop2
        injection hloop with hloop
        injection h with h
        subst hloop h
        exact encodeRequestArgsLoop_error _ _ _ _ hloop2
      · simp at hloop
    · simp at h

/-- Whatever the library does, `PerformAction` does not return the error "url is empty". -/
theorem PerformAction_ne_url_is_empty (lib : Lib) (actionName : String) (url : Option URL)
    (action : Option SoapAction) (responseAction : Option ResponseAction) :
    (PerformAction lib actionName url action responseAction).1 ≠
      some (.errorString "url is empty") := by
  have hS : ∀ s : String, GoError.errorString ("SOAP request got HTTP " ++ s) ≠
      .errorString "url is empty" := fun s =>
    ne_url_is_empty_of_head _ 'S' (by decide) (by simp [String.data_append])
  cases henc : encodeRequestAction lib.rangeOrder actionName action with
  | error err =>
    obtain ⟨msg, hmsg, hhead⟩ := encodeRequestAction_error _ _ _ _ henc
    simp only [PerformAction, henc, ne_eq, Option.some.injEq, hmsg]
    exact ne_url_is_empty_of_head msg 'e' (by decide) hhead
  | ok requestBytes =>
    cases hdo : lib.Do (newRequest actionName url requestBytes) with
    | error err =>
      simp only [PerformAction, henc, hdo, ne_eq, Option.some.injEq]
      exact ne_url_is_empty_of_head _ 'e' (by decide) (by simp [String.data_append])
    | ok response =>
      rw [PerformAction_of_response lib actionName url action responseAction requestBytes
        response henc hdo]
      split
      · simpa using hS response.Status
      · split
        · simp only [ne_eq, Option.some.injEq]
          exact ne_url_is_empty_of_head _ 'e' (by decide) (by simp [String.data_append])
        · split
          · simp
          · split
            · simpa using hS response.Status
            · split
              · simp
              · split
                · simp only [ne_eq, Option.some.injEq]
                  exact ne_url_is_empty_of_head _ 'e' (by decide)
                    (by simp [String.data_append])
                · simp

/-! ## C12 -/

/-- C12: with a nil control URL each of `AddPortMapping`, `DeletePortMapping` and
`GetExternalIPAddress` returns the error "url is empty" (the last one with the empty string
as value) whatever the arguments and whatever the library would do, so without a request
being encoded or sent; with a non-nil control URL each returns what `PerformAction` returns
for its action, and that is never the error "url is empty". -/
theorem C12_url_is_empty_only_for_nil (lib : Lib)
    (newRemoteHost newInternalClient newProtocol newPortMappingDescription : String)
    (newExternalPort newInternalPort : Nat) (newEnabled : Bool) (newLeaseDuration : Nat) :
    (AddPortMapping lib newRemoteHost newInternalClient newProtocol newPortMappingDescription
        newExternalPort newInternalPort newEnabled newLeaseDuration none =
        some (.errorString "url is empty") ∧
      DeletePortMapping lib newRemoteHost newExternalPort newProtocol none =
        some (.errorString "url is empty") ∧
      GetExternalIPAddress lib none = ("", some (.errorString "url is empty"))) ∧
    ∀ clientURL : URL,
      (AddPortMapping lib newRemoteHost newInternalClient newProtocol newPortMappingDescription
          newExternalPort newInternalPort newEnabled newLeaseDuration (some clientURL) =
          (PerformAction lib AddPortMappingAction (some clientURL)
            (some { Params := [
              ("NewRemoteHost", newRemoteHost),
              ("NewExternalPort", FormatUint10 newExternalPort),
              ("NewProtocol", newProtocol),
              ("NewInternalPort", FormatUint10 newInternalPort),
              ("NewInternalClient", newInternalClient),
              ("NewEnabled", MarshalBoolean newEnabled),
              ("NewPortMappingDescription", newPortMappingDescription),
              ("NewLeaseDuration", FormatUint10 newLeaseDuration)] }) none).1 ∧
        AddPortMapping lib newRemoteHost newInternalClient newProtocol
          newPortMappingDescription newExternalPort newInternalPort newEnabled
          newLeaseDuration (some clientURL) ≠ some (.errorString "url is empty")) ∧
      (DeletePortMapping lib newRemoteHost newExternalPort newProtocol (some clientURL) =
          (PerformAction lib DeletePortMappingAction (some clientURL)
            (some { Params := [
              ("NewRemoteHost", newRemoteHost),
              ("NewExternalPort", FormatUint10 newExternalPort),
              ("NewProtocol", newProtocol)] }) none).1 ∧
        DeletePortMapping lib newRemoteHost newExternalPort newProtocol (some clientURL) ≠
          some (.errorString "url is empty")) ∧
      ((GetExternalIPAddress lib (some clientURL)).2 =
          (PerformAction lib GetExternalIPAddressAction (some clientURL) none
            (some [("NewExternalIPAddress", "")])).1 ∧
        (GetExternalIPAddress lib (some clientURL)).2 ≠ some (.errorString "url is empty")) := by
  refine ⟨⟨rfl, rfl, rfl⟩, ?_⟩
  intro clientURL
  have hadd : AddPortMapping lib newRemoteHost newInternalClient newProtocol
      newPortMappingDescription newExternalPort newInternalPort newEnabled newLeaseDuration
      (some clientURL) =
      (PerformAction lib AddPortMappingAction (some clientURL)
        (some { Params := [
          ("NewRemoteHost", newRemoteHost),
          ("NewExternalPort", FormatUint10 newExternalPort),
          ("NewProtocol", newProtocol),
          ("NewInternalPort", FormatUint10 newInternalPort),
          ("NewInternalClient", newInternalClient),
          ("NewEnabled", MarshalBoolean newEnabled),
          ("NewPortMappingDescription", newPortMappingDescription),
          ("NewLeaseDuration", FormatUint10 newLeaseDuration)] }) none).1 := by
    simp only [AddPortMapping, MarshalU16, MarshalU32]
  have hdel : DeletePortMapping lib newRemoteHost newExternalPort newProtocol (some clientURL) =
      (PerformAction lib DeletePortMappingAction (some clientURL)
        (some { Params := [
          ("NewRemoteHost", newRemoteHost),
          ("NewExternalPort", FormatUint10 newExternalPort),
          ("NewProtocol", newProtocol)] }) none).1 := by
    simp only [DeletePortMapping, MarshalU16]
  have hget : (GetExternalIPAddress lib (some clientURL)).2 =
      (PerformAction lib GetExternalIPAddressAction (some clientURL) none
        (some [("NewExternalIPAddress", "")])).1 := by
    simp only [GetExternalIPAddress]
    split
    · rename_i err filled h
      rw [h]
    · rename_i filled h
      rw [h]
  refine ⟨⟨hadd, ?_⟩, ⟨hdel, ?_⟩, ⟨hget, ?_⟩⟩
  · rw [hadd]; exact PerformAction_ne_url_is_empty _ _ _ _ _
  · rw [hdel]; exact PerformAction_ne_url_is_empty _ _ _ _ _
  · rw [hget]; exact PerformAction_ne_url_is_empty _ _ _ _ _

/-! ## The ports of the device facade -/

/-- The conversion to `uint16` keeps a number between 0 and 65535. -/
theorem uint16_of_inRange (port : Int) (h0 : 0 ≤ port) (h1 : port ≤ 65535) :
    uint16 port = port.toNat ∧ (port.toNat : Int) = port := by
  have hmod : port % 65536 = port := Int.emod_eq_of_lt h0 (by omega)
  exact ⟨by simp [uint16, hmod], Int.toNat_of_nonneg h0⟩

/-! ## C13 -/

/-- C13, as stated, fails: `Forward(70000, "web")` sends NewExternalPort and NewInternalPort
4464, the low 16 bits of 70000, not 70000. -/
theorem C13_port_truncated :
    uint16 70000 = 4464 ∧
    Device.Forward probeLib cannedDial cannedDevice 70000 "web" =
      some (AddPortMapping probeLib "" "192.168.1.10" "TCP" "web" 4464 4464 true 0
        (some cannedURL)) ∧
    Device.Forward probeLib cannedDial cannedDevice 70000 "web" =
      some (some (.errorString ("SOAP request got HTTP " ++ soapPrefix ++
        "<u:AddPortMapping xmlns:u=\"urn:schemas-upnp-org:service:WANPPPConnection:1\">" ++
        "<NewRemoteHost></NewRemoteHost><NewExternalPort>4464</NewExternalPort>" ++
        "<NewProtocol>TCP</NewProtocol><NewInternalPort>4464</NewInternalPort>" ++
        "<NewInternalClient>192.168.1.10</NewInternalClient><NewEnabled>1</NewEnabled>" ++
        "<NewPortMappingDescription>web</NewPortMappingDescription>" ++
        "<NewLeaseDuration>0</NewLeaseDuration></u:AddPortMapping>" ++ soapSuffix))) := by
  refine ⟨by decide, rfl, ?_⟩
  decide

/-- C13, amended: for a port between 0 and 65535, when the local address is detected,
`Forward(port, description)` returns what `AddPortMapping` returns for the empty remote
host, the detected address as internal client, protocol "TCP", the description, external and
internal port both equal to `port`, enabled true and lease duration 0; with a control URL
the parameters NewExternalPort and NewInternalPort handed to `PerformAction` are the decimal
numeral of `port`. -/
theorem C13_Forward_in_range (lib : Lib) (Dial : String → String → Except GoError String)
    (d : Device) (port : Int) (mapDescription internalIP : String)
    (hdial : Dial "udp" "8.8.8.8:80" = .ok internalIP)
    (h0 : 0 ≤ port) (h1 : port ≤ 65535) :
    Device.Forward lib Dial d port mapDescription =
      some (AddPortMapping lib "" internalIP "TCP" mapDescription port.toNat port.toNat true 0
        d.clientURL) ∧
    (port.toNat : Int) = port ∧
    (∀ clientURL, d.clientURL = some clientURL →
      Device.Forward lib Dial d port mapDescription =
        some (PerformAction lib "AddPortMapping" (some clientURL)
          (some { Params := [
            ("NewRemoteHost", ""),
            ("NewExternalPort", FormatUint10 port.toNat),
            ("NewProtocol", "TCP"),
            ("NewInternalPort", FormatUint10 port.toNat),
            ("NewInternalClient", internalIP),
            ("NewEnabled", "1"),
            ("NewPortMappingDescription", mapDescription),
            ("NewLeaseDuration", "0")] }) none).1) ∧
    isDecimalNumeral (FormatUint10 port.toNat) = true ∧
    (decimalValue (FormatUint10 port.toNat) : Int) = port := by
  obtain ⟨hu, hnat⟩ := uint16_of_inRange port h0 h1
  have hfw : Device.Forward lib Dial d port mapDescription =
      some (AddPortMapping lib "" internalIP "TCP" mapDescription port.toNat port.toNat true 0
        d.clientURL) := by
    simp only [Device.Forward, getInternalIP, hdial, hu]
  have hzero : FormatUint10 0 = "0" := by decide
  refine ⟨hfw, hnat, ?_, (FormatUint10_spec _).1, ?_⟩
  · intro clientURL hurl
    rw [hfw, hurl]
    simp only [AddPortMapping, MarshalU16, MarshalU32, MarshalBoolean, AddPortMappingAction,
      hzero, if_true]
  · rw [(FormatUint10_spec _).2, hnat]

/-- C13, amended, on port 8080. -/
theorem C13_Forward_in_range_witness :
    Device.Forward probeLib cannedDial cannedDevice 8080 "web" =
      some (AddPortMapping probeLib "" "192.168.1.10" "TCP" "web" (8080 : Int).toNat
        (8080 : Int).toNat true 0 cannedDevice.clientURL) ∧
    (((8080 : Int).toNat : Nat) : Int) = 8080 ∧
    (∀ clientURL, cannedDevice.clientURL = some clientURL →
      Device.Forward probeLib cannedDial cannedDevice 8080 "web" =
        some (PerformAction probeLib "AddPortMapping" (some clientURL)
          (some { Params := [
            ("NewRemoteHost", ""),
            ("NewExternalPort", FormatUint10 (8080 : Int).toNat),
            ("NewProtocol", "TCP"),
            ("NewInternalPort", FormatUint10 (8080 : Int).toNat),
            ("NewInternalClient", "192.168.1.10"),
            ("NewEnabled", "1"),
            ("NewPortMappingDescription", "web"),
            ("NewLeaseDuration", "0")] }) none).1) ∧
    isDecimalNumeral (FormatUint10 (8080 : Int).toNat) = true ∧
    (decimalValue (FormatUint10 (8080 : Int).toNat) : Int) = 8080 :=
  C13_Forward_in_range probeLib cannedDial cannedDevice 8080 "web" "192.168.1.10" rfl
    (by decide) (by decide)

/-! ## C14 -/

/-- C14: for a port between 0 and 65535 and a device with a control URL, `Close(port)`
returns what `PerformAction` returns for the action "DeletePortMapping", that URL, no result
shape and exactly the three parameters NewRemoteHost = "", NewExternalPort = the decimal
numeral of `port` and NewProtocol = "TCP". -/
theorem C14_Close_parameters (lib : Lib) (d : Device) (port : Int) (clientURL : URL)
    (h0 : 0 ≤ port) (h1 : port ≤ 65535) (hurl : d.clientURL = some clientURL) :
    Device.Close lib d port =
      (PerformAction lib "DeletePortMapping" (some clientURL)
        (some { Params := [
          ("NewRemoteHost", ""),
          ("NewExternalPort", FormatUint10 port.toNat),
          ("NewProtocol", "TCP")] }) none).1 ∧
    isDecimalNumeral (FormatUint10 port.toNat) = true ∧
    (decimalValue (FormatUint10 port.toNat) : Int) = port := by
  obtain ⟨hu, hnat⟩ := uint16_of_inRange port h0 h1
  refine ⟨?_, (FormatUint10_spec _).1, ?_⟩
  · simp only [Device.Close, DeletePortMapping, hurl, MarshalU16, hu, DeletePortMappingAction]
  · rw [(FormatUint10_spec _).2, hnat]

/-- C14 on port 8080: the bytes sent carry the three parameters. -/
theorem C14_Close_parameters_witness :
    Device.Close probeLib cannedDevice 8080 =
      (PerformAction probeLib "DeletePortMapping" (some cannedURL)
        (some { Params := [
          ("NewRemoteHost", ""),
          ("NewExternalPort", FormatUint10 (8080 : Int).toNat),
          ("NewProtocol", "TCP")] }) none).1 ∧
    isDecimalNumeral (FormatUint10 (8080 : Int).toNat) = true ∧
    (decimalValue (FormatUint10 (8080 : Int).toNat) : Int) = 8080 :=
  C14_Close_parameters probeLib cannedDevice 8080 cannedURL (by decide) (by decide) rfl

/-! ## C15 -/

/-- C15, as stated, fails: with status 200, no fault and a nil result shape, a body that is
not a decodable envelope (the text "Not Found", or no body at all) makes `PerformAction`
return the error "error decoding response body: EOF". -/
theorem C15_undecodable_body_fails :
    (PerformAction (cannedLib ⟨"200 OK", 200, 9, "Not Found"⟩)
        DeletePortMappingAction (some cannedURL) none none).1 =
      some (.errorString "error decoding response body: EOF") ∧
    (PerformAction (cannedLib ⟨"200 OK", 200, 0, ""⟩)
        DeletePortMappingAction (some cannedURL) none none).1 =
      some (.errorString "error decoding response body: EOF") := by
  constructor
  · rfl
  · rfl

/-- C15, amended: for a received response with status 200, `PerformAction` called with a
nil result shape returns no error when the body decodes to an envelope without fault,
whatever the inner XML of the envelope body is (it is not decoded); when the body does not
decode to an envelope it returns the error "error decoding response body". -/
theorem C15_nil_shape (lib : Lib) (actionName : String) (url : Option URL)
    (action : Option SoapAction) (requestBytes : String) (response : Response)
    (henc : encodeRequestAction lib.rangeOrder actionName action = .ok requestBytes)
    (hdo : lib.Do (newRequest actionName url requestBytes) = .ok response)
    (hstatus : response.StatusCode = 200) :
    (∀ responseEnv, lib.Decode response.Body newSOAPEnvelope = .ok responseEnv →
      responseEnv.Body.Fault = none →
      PerformAction lib actionName url action none = (none, none)) ∧
    (∀ err, lib.Decode response.Body newSOAPEnvelope = .error err →
      PerformAction lib actionName url action none =
        (some (.errorString ("error decoding response body: " ++ err.Error)), none)) := by
  rw [PerformAction_of_response lib actionName url action none requestBytes response henc hdo]
  constructor
  · intro responseEnv hdec hfault
    simp [hstatus, hdec, hfault]
  · intro err hdec
    simp [hstatus, hdec]

/-- C15, amended, on a response with status 200 and an envelope with an empty body. -/
theorem C15_nil_shape_witness :
    PerformAction (cannedLib ⟨"200 OK", 200, 154, emptyActionBody⟩)
      AddPortMappingAction (some cannedURL) none none = (none, none) :=
  (C15_nil_shape (cannedLib ⟨"200 OK", 200, 154, emptyActionBody⟩)
    AddPortMappingAction (some cannedURL) none _ ⟨"200 OK", 200, 154, emptyActionBody⟩
    (encodeRequestAction_none _ _) rfl rfl).1
    { EncodingStyle := soapEncodingStyle, Body := { Fault := none, RawAction := "" } } rfl rfl

end TurboUpnp
